import Mathlib

/-
Verification of the media-import pipeline of `src/electron/main.ts`.

The TypeScript code is shallowly embedded: pure computations become Lean
functions, and filesystem effects (readdir, stat, copyFile, mkdir, access)
are abstracted as explicit oracle parameters describing the outcome the
host filesystem would produce.  Machine integers of JavaScript are modelled
as `Nat`/`Int` (the values involved — counters, sizes, millisecond
timestamps — stay far below 2^53, where JavaScript arithmetic is exact).
-/

namespace MediaWrangler

/-! ## String helpers (models of host primitives used by the code)

JavaScript string primitives (`includes`, `toUpperCase`, `toLowerCase`),
and the `path` module helpers (`join`, `extname`, `basename`) are modelled
on the character list of the string so that every definition evaluates
inside the kernel. -/

/-- Boolean test that `p` is a prefix of the second list (character-wise). -/
def charsPrefixOf : List Char → List Char → Bool
  | [], _ => true
  | _ :: _, [] => false
  | a :: as, b :: bs => a == b && charsPrefixOf as bs

/-- Boolean test that `p` occurs contiguously inside the second list. -/
def charsInfixOf (p : List Char) : List Char → Bool
  | [] => charsPrefixOf p []
  | b :: bs => charsPrefixOf p (b :: bs) || charsInfixOf p bs

/-- Model of JavaScript `s.includes(pat)`. -/
def strIncludes (s pat : String) : Bool := charsInfixOf pat.data s.data

/-- Model of JavaScript `s.toUpperCase()` (ASCII case map suffices here). -/
def toUpperStr (s : String) : String := ⟨s.data.map Char.toUpper⟩

/-- Model of JavaScript `s.toLowerCase()`. -/
def toLowerStr (s : String) : String := ⟨s.data.map Char.toLower⟩

/-- Model of `path.join(a, b)` (POSIX flavour; the separator choice is
irrelevant to every property proved below). -/
def joinPath (a b : String) : String := a ++ "/" ++ b

/-- Index of the last occurrence of a dot in a character list, if any. -/
def lastDotPos (cs : List Char) : Option Nat :=
  (List.range cs.length).foldl
    (fun acc i => if cs.get? i == some '.' then some i else acc) none

/-- Model of `path.extname(name)` restricted to plain file names (no
separators): the suffix starting at the last dot, or `""` when there is no
dot or the only dot is the leading character. -/
def extnameStr (name : String) : String :=
  match lastDotPos name.data with
  | some i => if i = 0 then "" else ⟨name.data.drop i⟩
  | none => ""

/-- Split of a file name into the part before the last dot and the
extension, so that `(splitExt n).1 ++ (splitExt n).2 = n`.  The first
component models `path.basename(name, path.extname(name))`. -/
def splitExt (name : String) : String × String :=
  match lastDotPos name.data with
  | some i => if i = 0 then (name, "") else (⟨name.data.take i⟩, ⟨name.data.drop i⟩)
  | none => (name, "")

/-- Model of `path.basename(p)`: the part of the path after the last
slash. -/
def basenameStr (p : String) : String :=
  ⟨(p.data.foldl (fun acc c => if c == '/' then [] else acc ++ [c]) [])⟩

/-- Duplicate-suffixed name `base_k.ext` built by the import loops from
`path.basename(name, ext)` and `path.extname(name)`. -/
def suffixedName (name : String) (k : Nat) : String :=
  (splitExt name).1 ++ "_" ++ Nat.repr k ++ (splitExt name).2

theorem splitExt_append (name : String) :
    (splitExt name).1 ++ (splitExt name).2 = name := by
  unfold splitExt
  cases h : lastDotPos name.data with
  | none => simp
  | some i =>
    by_cases hi : i = 0
    · simp [hi]
    · simp only [hi, if_false]
      show String.mk (name.data.take i ++ name.data.drop i) = name
      rw [List.take_append_drop]

theorem length_suffixedName (name : String) (k : Nat) :
    (suffixedName name k).length = name.length + 1 + (Nat.repr k).length := by
  have h := congrArg String.length (splitExt_append name)
  rw [String.length_append] at h
  have h2 : ("_" : String).length = 1 := rfl
  unfold suffixedName
  rw [String.length_append, String.length_append, String.length_append]
  omega

theorem suffixedName_ne (name : String) (k : Nat) : suffixedName name k ≠ name := by
  intro h
  have hl := congrArg String.length h
  rw [length_suffixedName] at hl
  omega

/-! ## Media classifier (main.ts lines 137-182) -/

/-- Set `VIDEO_EXTENSIONS` of main.ts. -/
def VIDEO_EXTENSIONS : List String :=
  ["mp4", "mov", "mkv", "avi", "webm", "m4v", "mpg", "mpeg", "wmv", "flv"]

/-- Set `IMAGE_EXTENSIONS` of main.ts. -/
def IMAGE_EXTENSIONS : List String :=
  ["jpg", "jpeg", "png", "gif", "webp", "bmp", "svg", "tiff", "ico",
   "heic", "heif", "dng", "raw", "cr2", "cr3", "nef", "arw", "orf", "rw2", "raf"]

/-- Function `isVideoFile` of main.ts; `none`/empty models a falsy `ext`. -/
def isVideoFile (ext : Option String) : Bool :=
  match ext with
  | some e => if e.isEmpty then false else VIDEO_EXTENSIONS.contains (toLowerStr e)
  | none => false

/-- Function `isImageFile` of main.ts. -/
def isImageFile (ext : Option String) : Bool :=
  match ext with
  | some e => if e.isEmpty then false else IMAGE_EXTENSIONS.contains (toLowerStr e)
  | none => false

/-- Function `isMediaFile` of main.ts. -/
def isMediaFile (ext : Option String) : Bool := isVideoFile ext || isImageFile ext

/-- Model of `path.extname(name).replace(/^\./, "").toLowerCase()` as used
by the scanner. -/
def extOfName (name : String) : String :=
  toLowerStr (match (extnameStr name).data with
    | '.' :: rest => ⟨rest⟩
    | other => ⟨other⟩)

/-! ## Error taxonomy (main.ts lines 1377-1460) -/

/-- Fixed error taxonomy of the `ImportError.type` field. -/
inductive ErrType where
  | permission
  | disk_space
  | file_corrupted
  | path_too_long
  | unknown
deriving DecidableEq, Repr

/-- Interface `ImportError` of main.ts. -/
structure ImportError where
  file : String
  error : String
  type : ErrType
  canRetry : Bool
  retryCount : Nat
deriving DecidableEq, Repr

/-- Function `categorizeError` of main.ts (lines 1393-1460).  The thrown
value has already been converted to its message string by the host
(`error instanceof Error ? error.message : String(error)`). -/
def categorizeError (errorMessage fileName : String) : ImportError :=
  if strIncludes errorMessage "EACCES" || strIncludes errorMessage "EPERM" ||
      strIncludes errorMessage "permission" then
    ⟨fileName, errorMessage, ErrType.permission, true, 0⟩
  else if strIncludes errorMessage "ENOSPC" || strIncludes errorMessage "disk" ||
      strIncludes errorMessage "space" then
    ⟨fileName, errorMessage, ErrType.disk_space, false, 0⟩
  else if strIncludes errorMessage "ENAMETOOLONG" || strIncludes errorMessage "path" ||
      strIncludes errorMessage "length" then
    ⟨fileName, errorMessage, ErrType.path_too_long, false, 0⟩
  else if strIncludes errorMessage "corrupt" || strIncludes errorMessage "invalid" ||
      strIncludes errorMessage "format" then
    ⟨fileName, errorMessage, ErrType.file_corrupted, true, 0⟩
  else
    ⟨fileName, errorMessage, ErrType.unknown, true, 0⟩

/-- Retryability flag the specification attaches to each taxonomy type. -/
def retryableOf : ErrType → Bool
  | ErrType.permission => true
  | ErrType.disk_space => false
  | ErrType.path_too_long => false
  | ErrType.file_corrupted => true
  | ErrType.unknown => true

/-- Disjunction of all the known substrings `categorizeError` inspects,
grouped exactly as the four conditions of the function. -/
def anyKnownSubstring (m : String) : Bool :=
  (strIncludes m "EACCES" || strIncludes m "EPERM" || strIncludes m "permission") ||
  (strIncludes m "ENOSPC" || strIncludes m "disk" || strIncludes m "space") ||
  (strIncludes m "ENAMETOOLONG" || strIncludes m "path" || strIncludes m "length") ||
  (strIncludes m "corrupt" || strIncludes m "invalid" || strIncludes m "format")

theorem categorizeError_canRetry (m f : String) :
    (categorizeError m f).canRetry = retryableOf (categorizeError m f).type := by
  unfold categorizeError
  repeat' split
  all_goals rfl

theorem categorizeError_unknown_iff (m f : String) :
    (categorizeError m f).type = ErrType.unknown ↔ anyKnownSubstring m = false := by
  unfold categorizeError anyKnownSubstring
  cases hc1 : (strIncludes m "EACCES" || strIncludes m "EPERM" ||
      strIncludes m "permission") <;>
  cases hc2 : (strIncludes m "ENOSPC" || strIncludes m "disk" ||
      strIncludes m "space") <;>
  cases hc3 : (strIncludes m "ENAMETOOLONG" || strIncludes m "path" ||
      strIncludes m "length") <;>
  cases hc4 : (strIncludes m "corrupt" || strIncludes m "invalid" ||
      strIncludes m "format") <;>
  simp

theorem categorizeError_type_by_first_match (m f : String) :
    ((strIncludes m "EACCES" || strIncludes m "EPERM" || strIncludes m "permission") = true →
      (categorizeError m f).type = ErrType.permission) ∧
    (categorizeError m f).file = f ∧ (categorizeError m f).error = m ∧
    (categorizeError m f).retryCount = 0 := by
  refine ⟨fun h => ?_, ?_, ?_, ?_⟩
  · unfold categorizeError; rw [if_pos h]
  all_goals unfold categorizeError; repeat' split
  all_goals rfl

/-! ## Retryable copier (main.ts lines 1462-1495)

The single filesystem attempt (`copyFile`, then `stat`, then `utimes`) is
abstracted as an oracle `outcome : Nat → Option String` giving, for each
attempt index, `none` on success or the thrown error message.  The run
records the attempts performed and the backoff waits (milliseconds) taken
between consecutive attempts. -/

/-- Outcome of one `copyFileWithRetry` call, together with the observable
schedule (attempt count and waits) the loop produced. -/
structure CopyRun where
  success : Bool
  error : Option ImportError
  attempts : Nat
  waitsMs : List Nat
deriving DecidableEq, Repr

/-- Body of the retry loop of `copyFileWithRetry`.  `remaining` is the
number of loop iterations the `for` header still allows
(`maxRetries + 1 - attempt`); when it reaches 0 the loop exits and the
function returns the `Max retries exceeded` fallback of lines 1491-1494
(never reached from the top-level entry). -/
def copyAttemptLoop (outcome : Nat → Option String) (fileName : String)
    (maxRetries : Nat) : Nat → Nat → CopyRun
  | 0, _ =>
    ⟨false, some (categorizeError "Max retries exceeded" fileName), 0, []⟩
  | remaining + 1, attempt =>
    match outcome attempt with
    | none => ⟨true, none, 1, []⟩
    | some msg =>
      let importError := categorizeError msg fileName
      if attempt == maxRetries || !importError.canRetry then
        ⟨false, some { importError with retryCount := attempt }, 1, []⟩
      else
        let rest := copyAttemptLoop outcome fileName maxRetries remaining (attempt + 1)
        ⟨rest.success, rest.error, rest.attempts + 1, 2 ^ attempt * 1000 :: rest.waitsMs⟩

/-- Function `copyFileWithRetry` of main.ts.  `sourcePath` only enters the
result through `path.basename(sourcePath)` in the error classification. -/
def copyFileWithRetry (outcome : Nat → Option String) (sourcePath : String)
    (maxRetries : Nat := 3) : CopyRun :=
  copyAttemptLoop outcome (basenameStr sourcePath) maxRetries (maxRetries + 1) 0

theorem copyAttemptLoop_succ_ok (outcome : Nat → Option String) (f : String)
    (maxRetries remaining attempt : Nat) (hm : outcome attempt = none) :
    copyAttemptLoop outcome f maxRetries (remaining + 1) attempt = ⟨true, none, 1, []⟩ := by
  unfold copyAttemptLoop
  rw [hm]

theorem copyAttemptLoop_succ_fail_stop (outcome : Nat → Option String) (f : String)
    (maxRetries remaining attempt : Nat) (m : String) (hm : outcome attempt = some m)
    (hstop : (attempt == maxRetries) = true ∨ (categorizeError m f).canRetry = false) :
    copyAttemptLoop outcome f maxRetries (remaining + 1) attempt =
      ⟨false, some { categorizeError m f with retryCount := attempt }, 1, []⟩ := by
  conv_lhs => unfold copyAttemptLoop
  rw [hm]
  rcases hstop with h | h <;> simp [h]

theorem copyAttemptLoop_succ_fail_retry (outcome : Nat → Option String) (f : String)
    (maxRetries remaining attempt : Nat) (m : String) (hm : outcome attempt = some m)
    (hne : (attempt == maxRetries) = false)
    (hcr : (categorizeError m f).canRetry = true) :
    copyAttemptLoop outcome f maxRetries (remaining + 1) attempt =
      ⟨(copyAttemptLoop outcome f maxRetries remaining (attempt + 1)).success,
       (copyAttemptLoop outcome f maxRetries remaining (attempt + 1)).error,
       (copyAttemptLoop outcome f maxRetries remaining (attempt + 1)).attempts + 1,
       2 ^ attempt * 1000 ::
         (copyAttemptLoop outcome f maxRetries remaining (attempt + 1)).waitsMs⟩ := by
  conv_lhs => unfold copyAttemptLoop
  rw [hm]
  simp [hne, hcr]

/-- Behaviour of the retry loop across a block of `k` consecutive failing,
retryable attempts: each one adds an exponential-backoff wait of
`2 ^ attempt * 1000` milliseconds and one attempt, and the loop continues
at attempt `attempt + k`. -/
theorem copyAttemptLoop_trace (outcome : Nat → Option String) (f : String) (maxRetries : Nat) :
    ∀ (k : Nat), ∀ (attempt : Nat), attempt + k ≤ maxRetries →
    (∀ j, j < k → ∃ m, outcome (attempt + j) = some m ∧
        (categorizeError m f).canRetry = true) →
    copyAttemptLoop outcome f maxRetries (maxRetries + 1 - attempt) attempt =
      ⟨(copyAttemptLoop outcome f maxRetries (maxRetries + 1 - (attempt + k)) (attempt + k)).success,
       (copyAttemptLoop outcome f maxRetries (maxRetries + 1 - (attempt + k)) (attempt + k)).error,
       (copyAttemptLoop outcome f maxRetries (maxRetries + 1 - (attempt + k)) (attempt + k)).attempts + k,
       ((List.range k).map fun j => 2 ^ (attempt + j) * 1000) ++
         (copyAttemptLoop outcome f maxRetries (maxRetries + 1 - (attempt + k)) (attempt + k)).waitsMs⟩ := by
  intro k
  induction k with
  | zero =>
    intro attempt _ _
    simp
  | succ k ih =>
    intro attempt hle hpre
    obtain ⟨m, hm, hcr⟩ := hpre 0 (by omega)
    rw [Nat.add_zero] at hm
    have hrem : maxRetries + 1 - attempt = (maxRetries - attempt) + 1 := by omega
    rw [hrem]
    rw [copyAttemptLoop_succ_fail_retry outcome f maxRetries (maxRetries - attempt) attempt m hm
      (by rw [beq_eq_false_iff_ne]; omega) hcr]
    have hrem2 : maxRetries - attempt = maxRetries + 1 - (attempt + 1) := by omega
    rw [hrem2]
    have ihh := ih (attempt + 1) (by omega) (fun j hj => by
      obtain ⟨m2, hm2, hcr2⟩ := hpre (j + 1) (by omega)
      exact ⟨m2, by rw [show attempt + 1 + j = attempt + (j + 1) by omega]; exact hm2, hcr2⟩)
    rw [ihh]
    rw [show attempt + (k + 1) = attempt + 1 + k by omega]
    refine congrArg₂ _ rfl ?_
    rw [List.range_succ_eq_map, List.map_cons, List.map_map]
    simp only [List.cons_append]
    refine congrArg₂ _ (by rw [Nat.add_zero]) ?_
    refine congrArg₂ _ ?_ rfl
    refine List.map_congr_left fun j _ => ?_
    simp only [Function.comp]
    rw [show attempt + (j + 1) = attempt + 1 + j by omega]

/-- C10 (implicit): when the first `k` copy attempts fail with retryable
errors and attempt `k ≤ maxRetries` fails with an error classified as
non-retryable, `copyFileWithRetry` stops right there: exactly `k + 1`
attempts are made, the backoff waits are only those between the earlier
attempts (none after the failing one), the returned error carries
`retryCount = k`, and its type is one of the two non-retryable taxonomy
types (`disk_space` or `path_too_long`). -/
theorem copyFileWithRetry_nonretryable_stops (outcome : Nat → Option String)
    (src : String) (maxRetries k : Nat) (hk : k ≤ maxRetries)
    (hpre : ∀ j, j < k → ∃ m, outcome j = some m ∧
        (categorizeError m (basenameStr src)).canRetry = true)
    (hfail : ∃ m, outcome k = some m ∧
        (categorizeError m (basenameStr src)).canRetry = false) :
    (copyFileWithRetry outcome src maxRetries).success = false ∧
    (copyFileWithRetry outcome src maxRetries).attempts = k + 1 ∧
    (copyFileWithRetry outcome src maxRetries).waitsMs =
      ((List.range k).map fun j => 2 ^ j * 1000) ∧
    (∃ m, outcome k = some m ∧
      (copyFileWithRetry outcome src maxRetries).error =
        some { categorizeError m (basenameStr src) with retryCount := k }) ∧
    (∀ e, (copyFileWithRetry outcome src maxRetries).error = some e →
      e.type = ErrType.disk_space ∨ e.type = ErrType.path_too_long) := by
  obtain ⟨m, hm, hcr⟩ := hfail
  have htrace := copyAttemptLoop_trace outcome (basenameStr src) maxRetries k 0 (by omega)
    (fun j hj => by simpa using hpre j hj)
  have hrem : maxRetries + 1 - (0 + k) = (maxRetries - k) + 1 := by omega
  rw [hrem] at htrace
  have hstop := copyAttemptLoop_succ_fail_stop outcome (basenameStr src) maxRetries
    (maxRetries - k) (0 + k) m (by simpa using hm) (Or.inr hcr)
  rw [hstop] at htrace
  have hrun : copyFileWithRetry outcome src maxRetries =
      ⟨false, some { categorizeError m (basenameStr src) with retryCount := 0 + k },
       1 + k, ((List.range k).map fun j => 2 ^ (0 + j) * 1000) ++ []⟩ := by
    show copyAttemptLoop outcome (basenameStr src) maxRetries (maxRetries + 1) 0 = _
    rw [show maxRetries + 1 = maxRetries + 1 - 0 by omega]
    exact htrace
  rw [hrun]
  have htype : (categorizeError m (basenameStr src)).type = ErrType.disk_space ∨
      (categorizeError m (basenameStr src)).type = ErrType.path_too_long := by
    have h := categorizeError_canRetry m (basenameStr src)
    rw [hcr] at h
    cases he : (categorizeError m (basenameStr src)).type <;>
      rw [he] at h <;> simp [retryableOf] at h <;> simp
  refine ⟨rfl, by simp [Nat.add_comm], by simp, ⟨m, hm, by simp⟩, fun e he => ?_⟩
  simp only [Option.some.injEq] at he
  subst he
  simpa using htype

/-- Witness for C10: one attempt failing with an `ENOSPC` message stops the
retry loop immediately with a `disk_space` error and `retryCount = 0`. -/
theorem copyFileWithRetry_nonretryable_stops_witness :
    (copyFileWithRetry (fun _ => some "ENOSPC: no space left on device") "/a/b.jpg" 3).attempts = 1 ∧
    (copyFileWithRetry (fun _ => some "ENOSPC: no space left on device") "/a/b.jpg" 3).waitsMs = [] := by
  have h := copyFileWithRetry_nonretryable_stops
    (fun _ => some "ENOSPC: no space left on device") "/a/b.jpg" 3 0
    (by omega) (fun j hj => absurd hj (by omega))
    ⟨"ENOSPC: no space left on device", rfl, by decide⟩
  exact ⟨h.2.1, by rw [h.2.2.1]; rfl⟩

/-- C2: when every attempt of `copyFileWithRetry(source, target, 3)` fails
with an error whose message classifies as `permission`, exactly 4 attempts
are made, with exponential-backoff waits of 1000, 2000 and 4000
milliseconds (`2 ^ attempt` seconds) between consecutive attempts, and the
call returns failure with an error of type `permission`, `canRetry = true`
and `retryCount = 3`. -/
theorem copyFileWithRetry_permission_exhausts (outcome : Nat → Option String)
    (src : String)
    (h : ∀ j, j ≤ 3 → ∃ m, outcome j = some m ∧
        (categorizeError m (basenameStr src)).type = ErrType.permission) :
    (copyFileWithRetry outcome src 3).success = false ∧
    (copyFileWithRetry outcome src 3).attempts = 4 ∧
    (copyFileWithRetry outcome src 3).waitsMs = [1000, 2000, 4000] ∧
    ∃ e, (copyFileWithRetry outcome src 3).error = some e ∧
      e.type = ErrType.permission ∧ e.canRetry = true ∧ e.retryCount = 3 := by
  have hcr : ∀ j, j ≤ 3 → ∃ m, outcome j = some m ∧
      (categorizeError m (basenameStr src)).canRetry = true ∧
      (categorizeError m (basenameStr src)).type = ErrType.permission := by
    intro j hj
    obtain ⟨m, hm, ht⟩ := h j hj
    refine ⟨m, hm, ?_, ht⟩
    rw [categorizeError_canRetry, ht]
    rfl
  have htrace := copyAttemptLoop_trace outcome (basenameStr src) 3 3 0 (by omega)
    (fun j hj => by
      obtain ⟨m, hm, hc, _⟩ := hcr j (by omega)
      exact ⟨m, by simpa using hm, hc⟩)
  obtain ⟨m3, hm3, hc3, ht3⟩ := hcr 3 (by omega)
  have hstop := copyAttemptLoop_succ_fail_stop outcome (basenameStr src) 3 0 (0 + 3) m3
    (by simpa using hm3) (Or.inl (by decide))
  rw [show (3 : Nat) + 1 - (0 + 3) = 0 + 1 by omega] at htrace
  rw [hstop] at htrace
  have hrun : copyFileWithRetry outcome src 3 =
      ⟨false, some { categorizeError m3 (basenameStr src) with retryCount := 0 + 3 },
       1 + 3, ((List.range 3).map fun j => 2 ^ (0 + j) * 1000) ++ []⟩ := by
    show copyAttemptLoop outcome (basenameStr src) 3 (3 + 1) 0 = _
    rw [show (3 : Nat) + 1 = 3 + 1 - 0 by omega]
    exact htrace
  rw [hrun]
  refine ⟨rfl, rfl, by rfl, ⟨_, rfl, by simpa using ht3, by simpa using hc3, rfl⟩⟩

/-- Witness for C2: a concrete run where every attempt throws
`EACCES: permission denied`. -/
theorem copyFileWithRetry_permission_exhausts_witness :
    (copyFileWithRetry (fun _ => some "EACCES: permission denied") "/sd/DCIM/a.jpg" 3).attempts = 4 ∧
    (copyFileWithRetry (fun _ => some "EACCES: permission denied") "/sd/DCIM/a.jpg" 3).waitsMs
      = [1000, 2000, 4000] := by
  have h := copyFileWithRetry_permission_exhausts
    (fun _ => some "EACCES: permission denied") "/sd/DCIM/a.jpg"
    (fun j _ => ⟨"EACCES: permission denied", rfl, by decide⟩)
  exact ⟨h.2.1, h.2.2.1⟩

/-- C8: `categorizeError` always lands in exactly one of the five taxonomy
types, its retryability flag is the fixed function of the type
(`permission`, `file_corrupted` and `unknown` retryable; `disk_space` and
`path_too_long` not), and the `unknown` default is chosen precisely when
none of the known message substrings occurs. -/
theorem categorizeError_taxonomy (m f : String) :
    ((categorizeError m f).type = ErrType.permission ∨
     (categorizeError m f).type = ErrType.disk_space ∨
     (categorizeError m f).type = ErrType.path_too_long ∨
     (categorizeError m f).type = ErrType.file_corrupted ∨
     (categorizeError m f).type = ErrType.unknown) ∧
    (categorizeError m f).canRetry = retryableOf (categorizeError m f).type ∧
    retryableOf ErrType.permission = true ∧
    retryableOf ErrType.disk_space = false ∧
    retryableOf ErrType.path_too_long = false ∧
    retryableOf ErrType.file_corrupted = true ∧
    retryableOf ErrType.unknown = true ∧
    ((categorizeError m f).type = ErrType.unknown ↔ anyKnownSubstring m = false) := by
  refine ⟨?_, categorizeError_canRetry m f, rfl, rfl, rfl, rfl, rfl,
    categorizeError_unknown_iff m f⟩
  cases h : (categorizeError m f).type <;> simp

/-- Witness for C8 at two concrete messages: a `disk`-flagged message is
classified non-retryable, and a message with no known substring defaults to
`unknown`. -/
theorem categorizeError_taxonomy_witness :
    (categorizeError "ENOSPC: no space left on device" "x.mp4").canRetry
      = retryableOf (categorizeError "ENOSPC: no space left on device" "x.mp4").type ∧
    ((categorizeError "something odd happened" "x.mp4").type = ErrType.unknown ↔
      anyKnownSubstring "something odd happened" = false) :=
  ⟨(categorizeError_taxonomy "ENOSPC: no space left on device" "x.mp4").2.1,
   (categorizeError_taxonomy "something odd happened" "x.mp4").2.2.2.2.2.2.2⟩

/-! ## Data model of the analyzer (main.ts lines 1200-1215) -/

/-- Discriminator of the `type` field of `MediaFileInfo`
(`isImageFile(ext) ? "image" : "video"`). -/
inductive MediaType where
  | image
  | video
deriving DecidableEq, Repr

/-- Interface `MediaFileInfo` of main.ts. -/
structure MediaFileInfo where
  path : String
  name : String
  type : MediaType
  size : Nat
  date : String
  encodedDate : Option String
  modifiedMs : Int
deriving DecidableEq, Repr

/-- Interface `AnalyzeResult` of main.ts.  The JavaScript object
`filesByDate` is modelled as an association list in property insertion
order (the order `Object.keys`/`Object.entries` iterate). -/
structure AnalyzeResult where
  filesByDate : List (String × List MediaFileInfo)
  totalFiles : Nat
  totalSize : Nat
  dates : List String
deriving DecidableEq, Repr

/-- Push of one value onto the bucket of key `k`, creating the bucket at
the end when absent — the JavaScript
`if (!m[k]) m[k] = []; m[k].push(v)` pattern. -/
def pushBucket {α : Type} (m : List (String × List α)) (k : String) (v : α) :
    List (String × List α) :=
  match m with
  | [] => [(k, [v])]
  | (k0, vs) :: rest =>
    if k0 = k then (k0, vs ++ [v]) :: rest else (k0, vs) :: pushBucket rest k v

/-- Lookup `m[k]` on the association-list model of a JavaScript object. -/
def lookupBucket {α : Type} (m : List (String × List α)) (k : String) :
    Option (List α) :=
  (m.find? (fun e => e.1 == k)).map (fun e => e.2)

/-! ## Analysis cache (main.ts lines 20-21, 1497-1526, 1633-1648) -/

/-- Entry of the module-level `analysisCache` map. -/
structure CacheEntry where
  result : AnalyzeResult
  timestamp : Int
deriving DecidableEq, Repr

/-- Constant `CACHE_DURATION` of main.ts: 5 minutes in milliseconds. -/
def CACHE_DURATION : Int := 5 * 60 * 1000

/-- Model of `Map.get`. -/
def mapGet (m : List (String × CacheEntry)) (k : String) : Option CacheEntry :=
  (m.find? (fun e => e.1 == k)).map (fun e => e.2)

/-- Model of `Map.set` (JavaScript keeps the insertion position of an
overwritten key). -/
def mapSet (m : List (String × CacheEntry)) (k : String) (v : CacheEntry) :
    List (String × CacheEntry) :=
  match m with
  | [] => [(k, v)]
  | (k0, v0) :: rest =>
    if k0 = k then (k0, v) :: rest else (k0, v0) :: mapSet rest k v

/-- Model of `Map.delete`. -/
def mapDelete (m : List (String × CacheEntry)) (k : String) :
    List (String × CacheEntry) :=
  match m with
  | [] => []
  | (k0, v0) :: rest =>
    if k0 = k then rest else (k0, v0) :: mapDelete rest k

/-- Result of one run of the `fs:analyzeSource` IPC handler: the returned
data, the cache after the call, and whether a fresh
`analyzeSourceDirectory` walk was performed. -/
structure AnalyzeHandlerRun where
  returned : AnalyzeResult
  cacheAfter : List (String × CacheEntry)
  scanned : Bool
deriving DecidableEq, Repr

/-- Handler `fs:analyzeSource` of main.ts (lines 1497-1526), with the walk
outcome abstracted as `freshResult` (the 20-minute outer timeout path is
not modelled — it would return an error, not a cached result). -/
def analyzeSourceHandler (cache : List (String × CacheEntry)) (sourcePath : String)
    (now : Int) (freshResult : AnalyzeResult) : AnalyzeHandlerRun :=
  match mapGet cache sourcePath with
  | some cached =>
    if now - cached.timestamp < CACHE_DURATION then
      ⟨cached.result, cache, false⟩
    else
      let cache1 := mapDelete cache sourcePath
      ⟨freshResult, mapSet cache1 sourcePath ⟨freshResult, now⟩, true⟩
  | none =>
    let cache1 := mapDelete cache sourcePath
    ⟨freshResult, mapSet cache1 sourcePath ⟨freshResult, now⟩, true⟩

/-- Cache consultation of the standard branch of `fs:importMedia`
(main.ts lines 1633-1648): the analysis used for the import, the cache
afterwards, and whether a fresh walk was performed. -/
def importMediaCacheLookup (cache : List (String × CacheEntry)) (sourcePath : String)
    (now : Int) (freshResult : AnalyzeResult) :
    AnalyzeResult × List (String × CacheEntry) × Bool :=
  match mapGet cache sourcePath with
  | some cached =>
    if now - cached.timestamp < CACHE_DURATION then
      (cached.result, cache, false)
    else
      (freshResult, mapSet cache sourcePath ⟨freshResult, now⟩, true)
  | none => (freshResult, mapSet cache sourcePath ⟨freshResult, now⟩, true)

/-- C4: both the `fs:analyzeSource` handler and the standard branch of
`fs:importMedia` serve a cached `AnalyzeResult` exactly when the entry for
that source path is younger than the 5-minute `CACHE_DURATION`; a served
hit returns the identical cached data with no fresh walk (and leaves the
cache untouched in the analyze handler), while an entry at or past the TTL
is never served — a fresh walk runs and its result replaces the entry. -/
theorem analysisCache_ttl (cache : List (String × CacheEntry)) (p : String)
    (now : Int) (fresh : AnalyzeResult) :
    ((analyzeSourceHandler cache p now fresh).scanned = false ↔
      ∃ c, mapGet cache p = some c ∧ now - c.timestamp < CACHE_DURATION) ∧
    (∀ c, mapGet cache p = some c → now - c.timestamp < CACHE_DURATION →
      (analyzeSourceHandler cache p now fresh).returned = c.result ∧
      (analyzeSourceHandler cache p now fresh).cacheAfter = cache) ∧
    (∀ c, mapGet cache p = some c → CACHE_DURATION ≤ now - c.timestamp →
      (analyzeSourceHandler cache p now fresh).scanned = true ∧
      (analyzeSourceHandler cache p now fresh).returned = fresh) ∧
    ((importMediaCacheLookup cache p now fresh).2.2 = false ↔
      ∃ c, mapGet cache p = some c ∧ now - c.timestamp < CACHE_DURATION) ∧
    (∀ c, mapGet cache p = some c → now - c.timestamp < CACHE_DURATION →
      (importMediaCacheLookup cache p now fresh).1 = c.result) ∧
    (∀ c, mapGet cache p = some c → CACHE_DURATION ≤ now - c.timestamp →
      (importMediaCacheLookup cache p now fresh).2.2 = true ∧
      (importMediaCacheLookup cache p now fresh).1 = fresh) := by
  unfold analyzeSourceHandler importMediaCacheLookup
  cases hc : mapGet cache p with
  | none =>
    refine ⟨by simp, ?_, ?_, by simp, ?_, ?_⟩ <;> intro c hcc <;> simp_all
  | some c0 =>
    by_cases hfresh : now - c0.timestamp < CACHE_DURATION
    · refine ⟨by simp [hfresh], ?_, ?_, by simp [hfresh], ?_, ?_⟩ <;>
        intro c hcc <;> rw [Option.some.injEq] at hcc <;> subst hcc <;>
        simp [hfresh]
    · refine ⟨by simp [hfresh], ?_, ?_, by simp [hfresh],
        ?_, ?_⟩ <;>
        intro c hcc <;> rw [Option.some.injEq] at hcc <;> subst hcc <;>
        intro hlt <;> simp [hfresh] <;> try omega

/-- Witness for C4 at a concrete cache: an entry written at time 0 is
served at `now = CACHE_DURATION - 1` without a fresh scan. -/
theorem analysisCache_ttl_witness :
    (analyzeSourceHandler [("/sd", ⟨⟨[], 0, 0, []⟩, 0⟩)] "/sd" (CACHE_DURATION - 1)
      ⟨[], 7, 7, []⟩).scanned = false :=
  (analysisCache_ttl [("/sd", ⟨⟨[], 0, 0, []⟩, 0⟩)] "/sd" (CACHE_DURATION - 1)
    ⟨[], 7, 7, []⟩).1.mpr ⟨⟨⟨[], 0, 0, []⟩, 0⟩, by decide, by decide⟩

/-! ## Source analyzer (main.ts lines 1217-1369)

The recursive `scanDirectory` walk is embedded over an abstract tree of
`FsNode`s; the `mapLimit(…, 5, …)` fan-out is sequentialized in entry
order (the data produced is order-insensitive up to bucket order, and the
claims quantify over arbitrary trees). -/

/-- Number rendered with at least two digits. -/
def pad2 (n : Nat) : String := if n < 10 then "0" ++ Nat.repr n else Nat.repr n

/-- Number rendered with at least four digits. -/
def pad4 (n : Nat) : String :=
  if n < 10 then "000" ++ Nat.repr n
  else if n < 100 then "00" ++ Nat.repr n
  else if n < 1000 then "0" ++ Nat.repr n
  else Nat.repr n

/-- Model of `new Date(ms).toISOString().split("T")[0]`: the UTC calendar
day of an epoch-millisecond timestamp, by the standard civil-from-days
conversion. -/
def msToIsoDate (ms : Int) : String :=
  let z : Int := Int.fdiv ms 86400000 + 719468
  let era : Int := Int.fdiv z 146097
  let doe : Nat := (z - era * 146097).toNat
  let yoe : Nat := (doe - doe / 1460 + doe / 36524 - doe / 146096) / 365
  let doy : Nat := doe - (365 * yoe + yoe / 4 - yoe / 100)
  let mp : Nat := (5 * doy + 2) / 153
  let d : Nat := doy - (153 * mp + 2) / 5 + 1
  let m : Nat := if mp < 10 then mp + 3 else mp - 9
  let y : Int := yoe + era * 400 + (if m ≤ 2 then 1 else 0)
  pad4 y.toNat ++ "-" ++ pad2 m ++ "-" ++ pad2 d

/-- Node of the abstract source filesystem the scanner walks.  A file
carries what `fsp.stat` and `getMediaInfo` would produce for it:
`statFails` models a throwing `stat` (the per-file catch then skips the
file), and `encoded` models `mediaInfo?.encodedDate` paired with the epoch
milliseconds `new Date(encodedDate)` parses it to (`none` for an invalid
date string, whose `toISOString()` throws into the same catch).  A
directory carries whether its `readdir` throws. -/
inductive FsNode where
  | file (name : String) (size : Nat) (mtimeMs : Int) (statFails : Bool)
      (encoded : Option (String × Option Int))
  | dir (name : String) (readFails : Bool) (children : List FsNode)
deriving Repr

/-- Mutable state of one `analyzeSourceDirectory` call. -/
structure ScanState where
  filesByDate : List (String × List MediaFileInfo)
  totalFiles : Nat
  totalSize : Nat
  scannedFiles : Nat
  scannedDirs : Nat
deriving DecidableEq, Repr

/-- Per-file body of `scanDirectory` (main.ts lines 1265-1314). -/
def scanFileStep (dirPath : String) (st : ScanState) (name : String) (size : Nat)
    (mtimeMs : Int) (statFails : Bool) (encoded : Option (String × Option Int)) :
    ScanState :=
  let st1 := { st with scannedFiles := st.scannedFiles + 1 }
  let ext := extOfName name
  if isMediaFile (some ext) then
    if statFails then st1
    else
      match encoded with
      | some (_, none) => st1
      | some (raw, some ms) =>
        let dateStr := msToIsoDate ms
        { st1 with
          filesByDate := pushBucket st1.filesByDate dateStr
            { path := joinPath dirPath name, name := name,
              type := if isImageFile (some ext) then MediaType.image else MediaType.video,
              size := size, date := dateStr, encodedDate := some raw,
              modifiedMs := mtimeMs },
          totalFiles := st1.totalFiles + 1,
          totalSize := st1.totalSize + size }
      | none =>
        let dateStr := msToIsoDate mtimeMs
        { st1 with
          filesByDate := pushBucket st1.filesByDate dateStr
            { path := joinPath dirPath name, name := name,
              type := if isImageFile (some ext) then MediaType.image else MediaType.video,
              size := size, date := dateStr, encodedDate := none,
              modifiedMs := mtimeMs },
          totalFiles := st1.totalFiles + 1,
          totalSize := st1.totalSize + size }
  else st1

mutual

/-- Handling of one directory entry by `scanDirectory` (main.ts lines
1242-1316).  For a sub-directory this inlines the depth guard and the
readdir of the recursive `scanDirectory(fullPath, depth + 1)` call. -/
def scanNode (depth : Nat) (dirPath : String) (st : ScanState) : FsNode → ScanState
  | FsNode.file name size mtimeMs statFails encoded =>
    scanFileStep dirPath st name size mtimeMs statFails encoded
  | FsNode.dir name readFails children =>
    let st1 := { st with scannedDirs := st.scannedDirs + 1 }
    if toUpperStr name = "PANORAMA" then st1
    else if depth + 1 > 50 then st1
    else if readFails then st1
    else scanNodes (depth + 1) (joinPath dirPath name) st1 children

/-- Sequentialized `mapLimit(dirents, 5, …)` over the entries of one
directory. -/
def scanNodes (depth : Nat) (dirPath : String) (st : ScanState) : List FsNode → ScanState
  | [] => st
  | n :: ns => scanNodes depth dirPath (scanNode depth dirPath st n) ns

end

/-- Initial accumulators of `analyzeSourceDirectory`. -/
def initScanState : ScanState := ⟨[], 0, 0, 0, 0⟩

/-- Result record built at the end of `analyzeSourceDirectory` (main.ts
lines 1361-1368); `dates` is `Object.keys(filesByDate).sort()`. -/
def mkAnalyzeResult (st : ScanState) : AnalyzeResult :=
  { filesByDate := st.filesByDate, totalFiles := st.totalFiles,
    totalSize := st.totalSize,
    dates := List.insertionSort (fun a b => a ≤ b) (st.filesByDate.map (fun e => e.1)) }

/-- Completed (non-timed-out) walk of `analyzeSourceDirectory` (main.ts
lines 1217-1369) over the abstract tree rooted at `sourcePath`:
`readFails` is the readdir outcome of the root itself, `children` its
entries. -/
def analyzeSourceDirectory (sourcePath : String) (readFails : Bool)
    (children : List FsNode) : AnalyzeResult :=
  mkAnalyzeResult (if readFails then initScanState
    else scanNodes 0 sourcePath initScanState children)

/-! ### Bucket lemmas -/

/-- Total number of files listed across all buckets. -/
def bucketCount (m : List (String × List MediaFileInfo)) : Nat :=
  (m.map (fun e => e.2.length)).sum

/-- Total byte size of all files listed across all buckets. -/
def bucketSizes (m : List (String × List MediaFileInfo)) : Nat :=
  (m.map (fun e => (e.2.map (fun f => f.size)).sum)).sum

theorem bucketCount_pushBucket (m : List (String × List MediaFileInfo)) (k : String)
    (v : MediaFileInfo) : bucketCount (pushBucket m k v) = bucketCount m + 1 := by
  induction m with
  | nil => simp [pushBucket, bucketCount]
  | cons e rest ih =>
    obtain ⟨k0, vs⟩ := e
    by_cases h : k0 = k <;> simp [pushBucket, bucketCount, h] <;>
      simp [bucketCount] at ih <;> omega

theorem bucketSizes_pushBucket (m : List (String × List MediaFileInfo)) (k : String)
    (v : MediaFileInfo) : bucketSizes (pushBucket m k v) = bucketSizes m + v.size := by
  induction m with
  | nil => simp [pushBucket, bucketSizes]
  | cons e rest ih =>
    obtain ⟨k0, vs⟩ := e
    by_cases h : k0 = k <;> simp [pushBucket, bucketSizes, h] <;>
      simp [bucketSizes] at ih <;> omega

theorem map_fst_pushBucket {α : Type} (m : List (String × List α)) (k : String) (v : α) :
    (pushBucket m k v).map (fun e => e.1) =
      if k ∈ m.map (fun e => e.1) then m.map (fun e => e.1)
      else m.map (fun e => e.1) ++ [k] := by
  induction m with
  | nil => simp [pushBucket]
  | cons e rest ih =>
    obtain ⟨k0, vs⟩ := e
    by_cases h : k0 = k
    · simp [pushBucket, h]
    · simp only [pushBucket, if_neg h, List.map_cons, ih]
      by_cases hmem : k ∈ rest.map (fun e => e.1) <;>
        simp [hmem, Ne.symm h]

theorem nodup_keys_pushBucket {α : Type} (m : List (String × List α)) (k : String)
    (v : α) (h : (m.map (fun e => e.1)).Nodup) :
    ((pushBucket m k v).map (fun e => e.1)).Nodup := by
  rw [map_fst_pushBucket]
  by_cases hmem : k ∈ m.map (fun e => e.1)
  · simpa [hmem]
  · simpa [hmem, List.nodup_append]

theorem mem_pushBucket {α : Type} {m : List (String × List α)} {k : String} {v : α}
    {d : String} {fs : List α} (h : (d, fs) ∈ pushBucket m k v) :
    (∃ fs0, (d, fs0) ∈ m ∧ (fs = fs0 ∨ (d = k ∧ fs = fs0 ++ [v]))) ∨
      (d = k ∧ fs = [v]) := by
  induction m with
  | nil =>
    rw [pushBucket, List.mem_singleton, Prod.mk.injEq] at h
    exact Or.inr h
  | cons e rest ih =>
    obtain ⟨k0, vs⟩ := e
    rw [pushBucket] at h
    by_cases hk : k0 = k
    · rw [if_pos hk, List.mem_cons] at h
      rcases h with h | h
      · rw [Prod.mk.injEq] at h
        refine Or.inl ⟨vs, by rw [h.1]; exact List.mem_cons_self _ _, Or.inr ⟨?_, h.2⟩⟩
        rw [h.1, hk]
      · exact Or.inl ⟨fs, List.mem_cons_of_mem _ h, Or.inl rfl⟩
    · rw [if_neg hk, List.mem_cons] at h
      rcases h with h | h
      · rw [Prod.mk.injEq] at h
        exact Or.inl ⟨fs, by rw [h.1, h.2]; exact List.mem_cons_self _ _, Or.inl rfl⟩
      · rcases ih h with ⟨fs0, hmem, hcase⟩ | hnew
        · exact Or.inl ⟨fs0, List.mem_cons_of_mem _ hmem, hcase⟩
        · exact Or.inr hnew

/-- Lookup of a present key in a keys-nodup association list. -/
theorem lookupBucket_of_mem {α : Type} {m : List (String × List α)} {k : String}
    {fs : List α} (hnd : (m.map (fun e => e.1)).Nodup) (h : (k, fs) ∈ m) :
    lookupBucket m k = some fs := by
  induction m with
  | nil => simp at h
  | cons e rest ih =>
    obtain ⟨k0, vs⟩ := e
    simp only [List.map_cons, List.nodup_cons] at hnd
    rcases List.mem_cons.mp h with he | he
    · rw [Prod.mk.injEq] at he
      simp [lookupBucket, List.find?, he.1, he.2]
    · have hne : k0 ≠ k := by
        intro hkk
        subst hkk
        exact hnd.1 (by simpa using List.mem_map_of_mem (fun e => e.1) he)
      simp only [lookupBucket, List.find?]
      rw [show (k0 == k) = false by simpa using hne]
      exact ih hnd.2 he

/-! ### Scan-state invariant -/

/-- Invariant maintained by the scanner accumulators. -/
def ScanInv (st : ScanState) : Prop :=
  st.totalFiles = bucketCount st.filesByDate ∧
  st.totalSize = bucketSizes st.filesByDate ∧
  (st.filesByDate.map (fun e => e.1)).Nodup ∧
  ∀ d fs, (d, fs) ∈ st.filesByDate → ∀ f ∈ fs, f.date = d

theorem scanFileStep_inv (dirPath : String) (st : ScanState) (name : String)
    (size : Nat) (mtimeMs : Int) (statFails : Bool)
    (encoded : Option (String × Option Int)) (h : ScanInv st) :
    ScanInv (scanFileStep dirPath st name size mtimeMs statFails encoded) := by
  obtain ⟨h1, h2, h3, h4⟩ := h
  have hpush : ∀ (dateStr : String) (fi : MediaFileInfo), fi.date = dateStr →
      ScanInv { st with
        filesByDate := pushBucket st.filesByDate dateStr fi,
        totalFiles := st.totalFiles + 1,
        totalSize := st.totalSize + fi.size,
        scannedFiles := st.scannedFiles + 1 } := by
    intro dateStr fi hdate
    refine ⟨?_, ?_, ?_, ?_⟩
    · simpa [bucketCount_pushBucket] using h1
    · simpa [bucketSizes_pushBucket] using h2
    · exact nodup_keys_pushBucket _ _ _ h3
    · intro d fs hmem f hf
      rcases mem_pushBucket hmem with ⟨fs0, hmem0, hc⟩ | hc
      · rcases hc with heq | ⟨hdk, heq⟩
        · rw [heq] at hf
          exact h4 d fs0 hmem0 f hf
        · subst hdk
          rw [heq] at hf
          rcases List.mem_append.mp hf with hf0 | hf0
          · exact h4 _ fs0 hmem0 f hf0
          · rw [List.mem_singleton.mp hf0, hdate]
      · rcases hc with ⟨hdk, heq⟩
        subst hdk
        rw [heq] at hf
        rw [List.mem_singleton.mp hf, hdate]
  unfold scanFileStep
  by_cases hm : isMediaFile (some (extOfName name)) = true
  · rw [if_pos hm]
    by_cases hs : statFails = true
    · rw [if_pos hs]
      exact ⟨h1, h2, h3, h4⟩
    · rw [if_neg hs]
      match encoded with
      | some (_, none) => exact ⟨h1, h2, h3, h4⟩
      | some (raw, some ms) => exact hpush _ _ rfl
      | none => exact hpush _ _ rfl
  · rw [if_neg hm]
    exact ⟨h1, h2, h3, h4⟩

mutual

theorem scanNode_inv (depth : Nat) (dirPath : String) (st : ScanState) (n : FsNode)
    (h : ScanInv st) : ScanInv (scanNode depth dirPath st n) := by
  cases n with
  | file name size mtimeMs statFails encoded =>
    rw [scanNode]
    exact scanFileStep_inv dirPath st name size mtimeMs statFails encoded h
  | dir name readFails children =>
    rw [scanNode]
    have h1 : ScanInv { st with scannedDirs := st.scannedDirs + 1 } := h
    by_cases hp : toUpperStr name = "PANORAMA"
    · rw [if_pos hp]; exact h1
    · rw [if_neg hp]
      by_cases hd : depth + 1 > 50
      · rw [if_pos hd]; exact h1
      · rw [if_neg hd]
        by_cases hr : readFails = true
        · rw [if_pos hr]; exact h1
        · rw [if_neg hr]
          exact scanNodes_inv (depth + 1) (joinPath dirPath name) _ children h1

theorem scanNodes_inv (depth : Nat) (dirPath : String) (st : ScanState)
    (ns : List FsNode) (h : ScanInv st) : ScanInv (scanNodes depth dirPath st ns) := by
  cases ns with
  | nil => rw [scanNodes]; exact h
  | cons n ns =>
    rw [scanNodes]
    exact scanNodes_inv depth dirPath _ ns (scanNode_inv depth dirPath st n h)

end

/-- Invariants of the result record built from any scan state satisfying
`ScanInv`. -/
theorem mkAnalyzeResult_invariants (st : ScanState) (hinv : ScanInv st) :
    (mkAnalyzeResult st).totalFiles =
      (((mkAnalyzeResult st).dates).map
        (fun d => ((lookupBucket (mkAnalyzeResult st).filesByDate d).getD []).length)).sum ∧
    (mkAnalyzeResult st).totalSize =
      (((mkAnalyzeResult st).dates).map
        (fun d => (((lookupBucket (mkAnalyzeResult st).filesByDate d).getD []).map (fun f => f.size)).sum)).sum ∧
    ((mkAnalyzeResult st).filesByDate.map (fun e => e.1)).Nodup ∧
    (∀ d fs, (d, fs) ∈ (mkAnalyzeResult st).filesByDate → ∀ f ∈ fs, f.date = d) ∧
    List.Sorted (fun a b => a ≤ b) (mkAnalyzeResult st).dates := by
  obtain ⟨h1, h2, h3, h4⟩ := hinv
  have hperm : (List.insertionSort (fun a b : String => a ≤ b)
      (st.filesByDate.map (fun e => e.1))).Perm (st.filesByDate.map (fun e => e.1)) :=
    List.perm_insertionSort _ _
  have hcount : ((List.insertionSort (fun a b : String => a ≤ b)
      (st.filesByDate.map (fun e => e.1))).map
        (fun d => ((lookupBucket st.filesByDate d).getD []).length)).sum
      = bucketCount st.filesByDate := by
    rw [(hperm.map _).sum_eq]
    unfold bucketCount
    rw [List.map_map]
    refine congrArg _ (List.map_congr_left fun e he => ?_)
    have hl : lookupBucket st.filesByDate e.1 = some e.2 :=
      lookupBucket_of_mem h3 (by simpa using he)
    simp [Function.comp, hl]
  have hsize : ((List.insertionSort (fun a b : String => a ≤ b)
      (st.filesByDate.map (fun e => e.1))).map
        (fun d => (((lookupBucket st.filesByDate d).getD []).map (fun f => f.size)).sum)).sum
      = bucketSizes st.filesByDate := by
    rw [(hperm.map _).sum_eq]
    unfold bucketSizes
    rw [List.map_map]
    refine congrArg _ (List.map_congr_left fun e he => ?_)
    have hl : lookupBucket st.filesByDate e.1 = some e.2 :=
      lookupBucket_of_mem h3 (by simpa using he)
    simp [Function.comp, hl]
  simp only [mkAnalyzeResult]
  exact ⟨by rw [h1, ← hcount], by rw [h2, ← hsize], h3, h4,
    List.sorted_insertionSort _ _⟩

/-- C9: every `AnalyzeResult` a completed walk produces satisfies the
counting invariants: `totalFiles` is the sum over `dates` of the bucket
lengths, `totalSize` is the sum of the sizes of every listed file, the
bucket keys are pairwise distinct and every listed file sits in the bucket
of its own `date` (so it belongs to exactly one bucket), and `dates` is
sorted ascending. -/
theorem analyzeSourceDirectory_invariants (sourcePath : String) (readFails : Bool)
    (children : List FsNode) :
    (analyzeSourceDirectory sourcePath readFails children).totalFiles =
      (((analyzeSourceDirectory sourcePath readFails children).dates).map
        (fun d => ((lookupBucket (analyzeSourceDirectory sourcePath readFails children).filesByDate d).getD []).length)).sum ∧
    (analyzeSourceDirectory sourcePath readFails children).totalSize =
      (((analyzeSourceDirectory sourcePath readFails children).dates).map
        (fun d => (((lookupBucket (analyzeSourceDirectory sourcePath readFails children).filesByDate d).getD []).map (fun f => f.size)).sum)).sum ∧
    ((analyzeSourceDirectory sourcePath readFails children).filesByDate.map
      (fun e => e.1)).Nodup ∧
    (∀ d fs, (d, fs) ∈ (analyzeSourceDirectory sourcePath readFails children).filesByDate →
      ∀ f ∈ fs, f.date = d) ∧
    List.Sorted (fun a b => a ≤ b)
      (analyzeSourceDirectory sourcePath readFails children).dates := by
  have hinit : ScanInv initScanState := by
    refine ⟨rfl, rfl, by simp [initScanState], ?_⟩
    intro d fs hmem
    simp [initScanState] at hmem
  have hinv : ScanInv (if readFails then initScanState
      else scanNodes 0 sourcePath initScanState children) := by
    by_cases hr : readFails = true
    · rw [if_pos hr]; exact hinit
    · rw [if_neg hr]; exact scanNodes_inv 0 sourcePath initScanState children hinit
  exact mkAnalyzeResult_invariants _ hinv

/-- Witness for C9: the sortedness conjunct at a concrete two-file tree
whose dates land in two buckets. -/
theorem analyzeSourceDirectory_invariants_witness :
    List.Sorted (fun a b : String => a ≤ b)
      (analyzeSourceDirectory "/sd" false
        [FsNode.file "b.mp4" 7 86400000 false none,
         FsNode.file "a.jpg" 5 0 false none]).dates :=
  (analyzeSourceDirectory_invariants "/sd" false
    [FsNode.file "b.mp4" 7 86400000 false none,
     FsNode.file "a.jpg" 5 0 false none]).2.2.2.2

/-! ## Timeout surfacing (main.ts lines 1227-1359) -/

/-- Progress payload of the `analyze-progress` channel. -/
structure AnalyzeProgress where
  type : String
  scannedFiles : Nat
  scannedDirs : Nat
  foundMediaFiles : Nat
  currentPath : String
deriving DecidableEq, Repr

/-- Message of the 15-minute internal walk timeout (main.ts line 1229). -/
def analysisTimeoutMsg : String := "Analysis timeout after 15 minutes"

/-- End phase of `analyzeSourceDirectory` (main.ts lines 1324-1359): the
raced walk either resolved (`walkOutcome = none`) or rejected with a
message; in both cases a final `complete` progress event carrying the
current counters is emitted, and a rejection whose message contains
`"timeout"` is re-thrown to the caller while any other outcome falls
through to returning the accumulated result. -/
def finishAnalysis (sourcePath : String) (walkOutcome : Option String)
    (st : ScanState) : List AnalyzeProgress × Except String ScanState :=
  let ev : AnalyzeProgress :=
    ⟨"complete", st.scannedFiles, st.scannedDirs, st.totalFiles, sourcePath⟩
  match walkOutcome with
  | none => ([ev], Except.ok st)
  | some errMsg =>
    if strIncludes errMsg "timeout" then ([ev], Except.error errMsg)
    else ([ev], Except.ok st)

/-- C7: when the walk is cut off by the 15-minute timeout, the end phase
still emits a final `complete` progress event reflecting the partial
scanned counts, and then surfaces the timeout to the caller as an error
(whose message is timeout-flagged) instead of returning the partial result
as a success. -/
theorem analyzeTimeout_surfaces (sourcePath : String) (st : ScanState) :
    finishAnalysis sourcePath (some analysisTimeoutMsg) st =
      ([⟨"complete", st.scannedFiles, st.scannedDirs, st.totalFiles, sourcePath⟩],
        Except.error analysisTimeoutMsg) ∧
    strIncludes analysisTimeoutMsg "timeout" = true := by
  refine ⟨?_, by decide⟩
  simp [finishAnalysis, show strIncludes analysisTimeoutMsg "timeout" = true by decide]

/-- Witness for C7 at a concrete partial state. -/
theorem analyzeTimeout_surfaces_witness :
    finishAnalysis "/sd" (some analysisTimeoutMsg) ⟨[], 5, 9, 12, 3⟩ =
      ([⟨"complete", 12, 3, 5, "/sd"⟩], Except.error analysisTimeoutMsg) :=
  (analyzeTimeout_surfaces "/sd" ⟨[], 5, 9, 12, 3⟩).1

/-! ## Source-structure detector (main.ts lines 643-719)

The `listDirectory` collaborator is abstracted as an oracle
`listDir : String → Option (List DirEnt)`: `some entries` is a normal
return (`listDirectory` catches its own readdir failures and returns an
empty entry array), and `none` models the call itself throwing, which the
outer `try`/`catch` of `analyzeSourceForImport` turns into the default
(`unknown`) result. -/

/-- Detected source type. -/
inductive SourceType where
  | dji_camera
  | standard_dcim
  | unknown
deriving DecidableEq, Repr

/-- Directory entry as the detector consumes it. -/
structure DirEnt where
  name : String
  isDir : Bool
  modifiedMs : Option Int
deriving DecidableEq, Repr

/-- Result record of `analyzeSourceForImport`. -/
structure SourceAnalysis where
  sourceType : SourceType
  djiFolders : List String
  panoramaFolders : List String
  panoramaFolderDates : List (String × String)
  dcimPath : Option String
deriving DecidableEq, Repr

/-- Test of the vendor folder pattern `/^DJI_\d{3}$/`. -/
def isDjiName (s : String) : Bool :=
  match s.data with
  | ['D', 'J', 'I', '_', a, b, c] => a.isDigit && b.isDigit && c.isDigit
  | _ => false

/-- Function `listDirectoriesOnly` of main.ts (lines 929-983): only the
directory entries; every failure is caught internally and yields an empty
list. -/
def listDirectoriesOnly (listDir : String → Option (List DirEnt)) (p : String) :
    List DirEnt :=
  ((listDir p).getD []).filter (fun e => e.isDir)

/-- Vendor folder names found among the target entries (main.ts lines
678-686). -/
def djiFoldersOf (targetEntries : List DirEnt) : List String :=
  (targetEntries.filter (fun e => e.isDir && isDjiName e.name)).map (fun e => e.name)

/-- Panorama sub-folder names and their derived dates (main.ts lines
688-705): present only when a `PANORAMA` directory child exists, read with
`listDirectoriesOnly`; an entry contributes a date only when its
`modifiedMs` is available. -/
def panoramaDataOf (listDir : String → Option (List DirEnt)) (targetPath : String)
    (targetEntries : List DirEnt) : List String × List (String × String) :=
  match targetEntries.find? (fun e => e.isDir && toUpperStr e.name == "PANORAMA") with
  | some pf =>
    ((listDirectoriesOnly listDir (joinPath targetPath pf.name)).map (fun e => e.name),
     (listDirectoriesOnly listDir (joinPath targetPath pf.name)).filterMap
       (fun e => e.modifiedMs.map (fun ms => (e.name, msToIsoDate ms))))
  | none => ([], [])

/-- Body of `analyzeSourceForImport` from the successful listing of the
effective target directory onwards (main.ts lines 677-714): vendor-folder
and panorama detection and the final classification. -/
def detectFromTarget (listDir : String → Option (List DirEnt)) (targetPath : String)
    (targetEntries : List DirEnt) (dcimPath : Option String) : SourceAnalysis :=
  ⟨if (djiFoldersOf targetEntries).length > 0 ||
      (panoramaDataOf listDir targetPath targetEntries).1.length > 0 then
     SourceType.dji_camera
   else SourceType.standard_dcim,
   djiFoldersOf targetEntries,
   (panoramaDataOf listDir targetPath targetEntries).1,
   (panoramaDataOf listDir targetPath targetEntries).2,
   dcimPath⟩

/-- Function `analyzeSourceForImport` of main.ts (lines 643-719). -/
def analyzeSourceForImport (listDir : String → Option (List DirEnt))
    (sourcePath : String) : SourceAnalysis :=
  match listDir sourcePath with
  | none => ⟨SourceType.unknown, [], [], [], none⟩
  | some sourceEntries =>
    match sourceEntries.find? (fun e => e.isDir && toUpperStr e.name == "DCIM") with
    | some dcimEntry =>
      match listDir (joinPath sourcePath dcimEntry.name) with
      | none =>
        ⟨SourceType.unknown, [], [], [], some (joinPath sourcePath dcimEntry.name)⟩
      | some targetEntries =>
        detectFromTarget listDir (joinPath sourcePath dcimEntry.name) targetEntries
          (some (joinPath sourcePath dcimEntry.name))
    | none =>
      match listDir sourcePath with
      | none => ⟨SourceType.unknown, [], [], [], none⟩
      | some targetEntries => detectFromTarget listDir sourcePath targetEntries none

/-- Effective scan root the detector works under: the DCIM child when one
is present in the source listing, otherwise the source itself. -/
def effectiveScanRoot (listDir : String → Option (List DirEnt))
    (sourcePath : String) : Option String :=
  (listDir sourcePath).map (fun es =>
    match es.find? (fun e => e.isDir && toUpperStr e.name == "DCIM") with
    | some e => joinPath sourcePath e.name
    | none => sourcePath)

/-- Classification behaviour of the detector once the target listing
succeeded: the result is never `unknown`, and it is `dji_camera` exactly
when vendor or panorama folders were found. -/
theorem detectFromTarget_spec (listDir : String → Option (List DirEnt))
    (targetPath : String) (targetEntries : List DirEnt) (dcimPath : Option String) :
    (detectFromTarget listDir targetPath targetEntries dcimPath).sourceType ≠
      SourceType.unknown ∧
    ((detectFromTarget listDir targetPath targetEntries dcimPath).sourceType =
        SourceType.dji_camera ↔
      ((detectFromTarget listDir targetPath targetEntries dcimPath).djiFolders ≠ [] ∨
        (detectFromTarget listDir targetPath targetEntries dcimPath).panoramaFolders ≠ [])) := by
  by_cases h1 : 0 < (djiFoldersOf targetEntries).length
  · have h1a : djiFoldersOf targetEntries ≠ [] := by
      rw [← List.length_pos]
      exact h1
    exact ⟨by unfold detectFromTarget; simp [h1],
      by unfold detectFromTarget; simp [h1, h1a]⟩
  · have h1a : djiFoldersOf targetEntries = [] := by
      rw [← List.length_eq_zero]
      omega
    by_cases h2 : 0 < ((panoramaDataOf listDir targetPath targetEntries).1).length
    · have h2a : (panoramaDataOf listDir targetPath targetEntries).1 ≠ [] := by
        rw [← List.length_pos]
        exact h2
      exact ⟨by unfold detectFromTarget; simp [h1, h2],
        by unfold detectFromTarget; simp [h1, h2, h2a]⟩
    · have h2a : (panoramaDataOf listDir targetPath targetEntries).1 = [] := by
        rw [← List.length_eq_zero]
        omega
      exact ⟨by unfold detectFromTarget; simp [h1, h2],
        by unfold detectFromTarget; simp [h1, h2, h1a, h2a]⟩

/-- C3 counterexample input: a listable source directory containing one
plain file — no DCIM child, no vendor folders, no panorama folder. -/
def plainListing : String → Option (List DirEnt) :=
  fun p => if p == "/src" then some [⟨"photo.txt", false, none⟩] else none

/-- C3 fails as stated: a listable source with no DCIM child (and no
vendor or panorama folders) is classified `standard_dcim`, not `unknown`
as the claim requires for the no-DCIM case. -/
theorem analyzeSourceForImport_no_dcim_counterexample :
    (analyzeSourceForImport plainListing "/src").sourceType = SourceType.standard_dcim ∧
    ((plainListing "/src").getD []).all
      (fun e => !(e.isDir && toUpperStr e.name == "DCIM")) = true ∧
    (analyzeSourceForImport plainListing "/src").sourceType ≠ SourceType.unknown := by
  decide

/-- Full classification behaviour of `analyzeSourceForImport` over an
arbitrary listing oracle. -/
theorem analyzeSourceForImport_classified
    (listDir : String → Option (List DirEnt)) (sourcePath : String) :
    ((analyzeSourceForImport listDir sourcePath).sourceType = SourceType.unknown ↔
      (effectiveScanRoot listDir sourcePath).bind listDir = none) ∧
    ((analyzeSourceForImport listDir sourcePath).sourceType = SourceType.dji_camera ↔
      ((analyzeSourceForImport listDir sourcePath).djiFolders ≠ [] ∨
        (analyzeSourceForImport listDir sourcePath).panoramaFolders ≠ [])) := by
  unfold analyzeSourceForImport effectiveScanRoot
  cases h1 : listDir sourcePath with
  | none => simp
  | some es =>
    simp only [Option.map_some', Option.some_bind]
    cases h2 : es.find? (fun e => e.isDir && toUpperStr e.name == "DCIM") with
    | none =>
      simp only [h1]
      exact ⟨by simpa using (detectFromTarget_spec listDir sourcePath es none).1,
        by simpa using (detectFromTarget_spec listDir sourcePath es none).2⟩
    | some dcimEntry =>
      cases h3 : listDir (joinPath sourcePath dcimEntry.name) with
      | none => simp [h3]
      | some ts =>
        simp only [h3]
        exact ⟨by simpa using (detectFromTarget_spec listDir
            (joinPath sourcePath dcimEntry.name) ts
            (some (joinPath sourcePath dcimEntry.name))).1,
          by simpa using (detectFromTarget_spec listDir
            (joinPath sourcePath dcimEntry.name) ts
            (some (joinPath sourcePath dcimEntry.name))).2⟩

/-- C3 (amended): the detector classifies the tree as the vendor-specific
type (`dji_camera`) exactly when vendor (`DJI_NNN`) sub-folders or a
panorama folder with sub-folders were found; otherwise, whenever the
source and its effective scan root are listable, it classifies as
`standard_dcim` regardless of whether a DCIM child exists; `unknown` is
produced exactly when listing the source or its effective root throws —
not, as the claim states, whenever DCIM is absent. -/
theorem analyzeSourceForImport_classification
    (listDir : String → Option (List DirEnt)) (sourcePath : String) :
    ((analyzeSourceForImport listDir sourcePath).sourceType = SourceType.unknown ↔
      (effectiveScanRoot listDir sourcePath).bind listDir = none) ∧
    ((analyzeSourceForImport listDir sourcePath).sourceType = SourceType.dji_camera ↔
      ((analyzeSourceForImport listDir sourcePath).djiFolders ≠ [] ∨
        (analyzeSourceForImport listDir sourcePath).panoramaFolders ≠ [])) :=
  analyzeSourceForImport_classified listDir sourcePath

/-- Witness for C3 (amended) at a source with one vendor folder directly
under the root: the classification is `dji_camera` exactly because the
vendor folder list is non-empty. -/
theorem analyzeSourceForImport_classification_witness :
    (analyzeSourceForImport
      (fun p => if p == "/sd" then some [⟨"DJI_001", true, none⟩]
        else if p == "/sd/DJI_001" then some [] else none) "/sd").sourceType
      = SourceType.dji_camera :=
  (analyzeSourceForImport_classification
    (fun p => if p == "/sd" then some [⟨"DJI_001", true, none⟩]
      else if p == "/sd/DJI_001" then some [] else none) "/sd").2.mpr
    (Or.inl (by decide))

/-! ## Import orchestrator (main.ts lines 726-924 and 1528-1783)

The orchestrator is embedded over an oracle environment: `listDir` for
`listDirectory`, `fsTree` for the tree `analyzeSourceDirectory` walks
under a given path, `copyAttempt` for the per-attempt outcome of the
retryable copier, `mkdirFail` for `fsp.mkdir`, `copyDirFail` for
`copyDirectoryRecursive`, `occupied` for the destination paths that
already exist (successful copies extend it), and the analysis cache with
the current clock.  The `mapLimit(…, 8, …)` copy fan-outs are
sequentialized in input order. -/

/-- Interface `DetailedImportResult` of main.ts. -/
structure DetailedImportResult where
  imported : Nat
  total : Nat
  errors : List ImportError
  skipped : List ImportError
  warnings : List String
deriving DecidableEq, Repr

/-- Value returned by the `fs:importMedia` IPC handler. -/
inductive ImportOutcome where
  | ok (r : DetailedImportResult)
  | err (msg : String)
deriving DecidableEq, Repr

/-- Oracle environment of one `fs:importMedia` call. -/
structure ImportEnv where
  listDir : String → Option (List DirEnt)
  fsTree : String → Bool × List FsNode
  copyAttempt : String → String → Nat → Option String
  mkdirFail : String → Option String
  copyDirFail : String → String → Option String
  occupied : List String
  cache : List (String × CacheEntry)
  now : Int

/-- Run of `analyzeSourceDirectory` on the tree found under `p`. -/
def analyzeAt (env : ImportEnv) (p : String) : AnalyzeResult :=
  analyzeSourceDirectory p (env.fsTree p).1 (env.fsTree p).2

/-- Lookup on a `Record<string, string>` modelled as an association list. -/
def lookupAssoc (m : List (String × String)) (k : String) : Option String :=
  (m.find? (fun e => e.1 == k)).map (fun e => e.2)

/-- Candidate destination paths the duplicate loops probe, in order: the
original name, then `name_1.ext`, `name_2.ext`, …. -/
def candidatePath (targetDir name : String) : Nat → String
  | 0 => joinPath targetDir name
  | k + 1 => joinPath targetDir (suffixedName name (k + 1))

/-- Duplicate-name loop of the standard import branch (main.ts lines
1707-1725): while the candidate exists, the next candidate
`base_counter.ext` is built with the current counter, the counter is
incremented, and once it passes 100 the loop gives up (`none` — the file
is silently skipped).  The loop runs at most 100 iterations (the counter
climbs from 1 to the cap), so with `fuel + counter = 101` maintained the
fuel-exhausted branch is unreachable. -/
def resolveLoop (occupied : List String) (targetDir name : String) :
    Nat → Nat → String → Option String
  | 0, _, _ => none
  | fuel + 1, counter, targetPath =>
    if targetPath ∈ occupied then
      if counter + 1 > 100 then none
      else resolveLoop occupied targetDir name fuel (counter + 1)
        (joinPath targetDir (suffixedName name counter))
    else some targetPath

/-- Entry point of the duplicate-name loop: counter 1, original name. -/
def resolveTarget (occupied : List String) (targetDir name : String) : Option String :=
  resolveLoop occupied targetDir name 100 1 (joinPath targetDir name)

/-- State accumulated by the standard import branch across date groups. -/
structure StdAcc where
  imported : Nat
  errors : List ImportError
  warnings : List String
  occupied : List String
deriving DecidableEq, Repr

/-- Duplicate-collision warning string (main.ts lines 1728-1732). -/
def dupWarning (name targetPath : String) : String :=
  "Duplicate filename: " ++ name ++ " → " ++ basenameStr targetPath

/-- Per-file body of the standard-branch copy loop (main.ts lines
1701-1761) with the whole body of one file run as a unit: duplicate
resolution, warning for a renamed file, retryable copy; a failed copy
whose error is retryable is recorded, a non-retryable failure is silently
dropped, and a successful copy adds the written target path to the
existing destination paths.  Running file bodies back to back is one
particular schedule of the concurrent `mapLimit(files, 8, …)` fan-out;
conclusions drawn from this sequential model are faithful only when they
are insensitive to the interleaving — the interleaved executions
themselves are modelled by `runGroupSchedule` below. -/
def stdProcessFile (copyAttempt : String → String → Nat → Option String)
    (imagesDir videosDir : String) (acc : StdAcc) (file : MediaFileInfo) : StdAcc :=
  let targetDir := if file.type == MediaType.image then imagesDir else videosDir
  match resolveTarget acc.occupied targetDir file.name with
  | none => acc
  | some targetPath =>
    let acc1 := if targetPath ≠ joinPath targetDir file.name then
        { acc with warnings := acc.warnings ++ [dupWarning file.name targetPath] }
      else acc
    let copyResult := copyFileWithRetry (copyAttempt file.path targetPath) file.path 3
    if copyResult.success then
      { acc1 with imported := acc1.imported + 1, occupied := acc1.occupied ++ [targetPath] }
    else
      match copyResult.error with
      | some e => if e.canRetry then { acc1 with errors := acc1.errors ++ [e] } else acc1
      | none => acc1

/-- Destination directories for one date group (main.ts lines 1675-1688
and 786-795). -/
def groupDirs (destinationPath : String) (createDateFolders : Bool) (date : String) :
    String × String :=
  if createDateFolders then
    (joinPath (joinPath destinationPath date) "IMAGES",
     joinPath (joinPath destinationPath date) "VIDEOS")
  else (joinPath destinationPath "IMAGES", joinPath destinationPath "VIDEOS")

/-- Processing of one date group by the standard branch (main.ts lines
1674-1762): create the two target directories (a failure records one
categorized error and skips the whole group), then copy each file, with
the `mapLimit(files, 8, …)` fan-out run file by file in input order (see
the note on `stdProcessFile` for the scope of that sequentialization). -/
def stdImportGroup (env : ImportEnv) (destinationPath : String)
    (createDateFolders : Bool) (acc : StdAcc) (g : String × List MediaFileInfo) :
    StdAcc :=
  let dirs := groupDirs destinationPath createDateFolders g.1
  match env.mkdirFail dirs.1 with
  | some m =>
    { acc with errors := acc.errors ++
        [categorizeError m ("Directory creation for " ++ g.1)] }
  | none =>
    match env.mkdirFail dirs.2 with
    | some m =>
      { acc with errors := acc.errors ++
          [categorizeError m ("Directory creation for " ++ g.1)] }
    | none => g.2.foldl (stdProcessFile env.copyAttempt dirs.1 dirs.2) acc

/-- Date filtering of the files to import (main.ts lines 1650-1659 and
761-769). -/
def filterBySelectedDate (analysis : AnalyzeResult) (selectedDate : Option String) :
    List MediaFileInfo :=
  match selectedDate with
  | some d => (lookupBucket analysis.filesByDate d).getD []
  | none => analysis.filesByDate.foldl (fun acc e => acc ++ e.2) []

/-- Grouping of the filtered files by their date (main.ts lines 1666-1672
and 776-782). -/
def groupByDate (files : List MediaFileInfo) : List (String × List MediaFileInfo) :=
  files.foldl (fun m f => pushBucket m f.date f) []

/-- State accumulated by the vendor-specific phases. -/
structure DjiAcc where
  imported : Nat
  errors : List ImportError
  occupied : List String
deriving DecidableEq, Repr

/-- Uncapped duplicate-name loop of `importDjiFiles` (main.ts lines
815-826).  The source loop terminates because the suffixed candidates are
pairwise distinct paths and only finitely many paths exist; the fuel
`occupied.length + 2` is enough to reach a free candidate, so the
fuel-exhausted branch is unreachable. -/
def djiResolveLoop (occupied : List String) (targetDir name : String) :
    Nat → Nat → String → String
  | 0, _, targetPath => targetPath
  | fuel + 1, counter, targetPath =>
    if targetPath ∈ occupied then
      djiResolveLoop occupied targetDir name fuel (counter + 1)
        (joinPath targetDir (suffixedName name counter))
    else targetPath

/-- Entry point of the DJI duplicate-name loop. -/
def djiResolveTarget (occupied : List String) (targetDir name : String) : String :=
  djiResolveLoop occupied targetDir name (occupied.length + 2) 1 (joinPath targetDir name)

/-- Per-file body of the DJI copy loop (main.ts lines 809-846): the result
of `copyFileWithRetry` is not consulted — `imported` is incremented
unconditionally (the copier resolves rather than throws on failure, so the
catch handler is unreachable) — but only a successful copy creates the
destination file. -/
def djiCopyFile (env : ImportEnv) (imagesDir videosDir : String) (acc : DjiAcc)
    (file : MediaFileInfo) : DjiAcc :=
  let targetDir := if file.type == MediaType.image then imagesDir else videosDir
  let targetPath := djiResolveTarget acc.occupied targetDir file.name
  let r := copyFileWithRetry (env.copyAttempt file.path targetPath) file.path 3
  { acc with
    imported := acc.imported + 1
    occupied := if r.success then acc.occupied ++ [targetPath] else acc.occupied }

/-- Processing of one date group by `importDjiFiles` (main.ts lines
785-847). -/
def djiImportGroup (env : ImportEnv) (destinationPath : String)
    (createDateFolders : Bool) (acc : DjiAcc) (g : String × List MediaFileInfo) :
    DjiAcc :=
  let dirs := groupDirs destinationPath createDateFolders g.1
  match env.mkdirFail dirs.1 with
  | some m =>
    { acc with errors := acc.errors ++
        [categorizeError m ("Directory creation for " ++ g.1)] }
  | none =>
    match env.mkdirFail dirs.2 with
    | some m =>
      { acc with errors := acc.errors ++
          [categorizeError m ("Directory creation for " ++ g.1)] }
    | none => g.2.foldl (djiCopyFile env dirs.1 dirs.2) acc

/-- Per-folder analysis merge of `importDjiFiles` (main.ts lines 742-759). -/
def djiFilesByDate (env : ImportEnv) (base : String) (djiFolders : List String) :
    List (String × List MediaFileInfo) :=
  djiFolders.foldl (fun m folder =>
    (analyzeAt env (joinPath base folder)).filesByDate.foldl
      (fun m e => e.2.foldl (fun m f => pushBucket m e.1 f) m) m) []

/-- Function `importDjiFiles` of main.ts (lines 726-850). -/
def importDjiFiles (env : ImportEnv) (base destinationPath : String)
    (djiFolders : List String) (selectedDate : Option String)
    (createDateFolders : Bool) : DjiAcc :=
  let m := djiFilesByDate env base djiFolders
  let filesToImport : List MediaFileInfo := match selectedDate with
    | some d => (lookupBucket m d).getD []
    | none => m.foldl (fun acc e => acc ++ e.2) []
  if filesToImport.length = 0 then ⟨0, [], env.occupied⟩
  else (groupByDate filesToImport).foldl
    (djiImportGroup env destinationPath createDateFolders) ⟨0, [], env.occupied⟩

/-- Function `importPanoramaFolders` of main.ts (lines 855-924);
`copyDirectoryRecursive` is abstracted as the `copyDirFail` oracle.  A
folder is skipped silently when a date filter is set, the folder has a
derived date, and the two differ. -/
def importPanoramaFolders (env : ImportEnv) (sourcePath destinationPath : String)
    (panoramaFolders : List String) (panoramaFolderDates : List (String × String))
    (selectedDate : Option String) : DjiAcc :=
  if panoramaFolders.length = 0 then ⟨0, [], []⟩
  else
    match env.mkdirFail (joinPath destinationPath "PANO_SOURCES") with
    | some m => ⟨0, [categorizeError m "PANO_SOURCES directory creation"], []⟩
    | none =>
      panoramaFolders.foldl (fun acc folder =>
        let skip := match selectedDate, lookupAssoc panoramaFolderDates folder with
          | some sd, some fd => fd != sd
          | _, _ => false
        if skip then acc
        else
          match env.copyDirFail (joinPath sourcePath folder)
              (joinPath (joinPath destinationPath "PANO_SOURCES") folder) with
          | none => { acc with imported := acc.imported + 1 }
          | some m =>
            { acc with errors := acc.errors ++
                [categorizeError m (joinPath sourcePath folder)] }) ⟨0, [], []⟩

/-- Grand-total pre-count of DJI files matching the filter (main.ts lines
1557-1572). -/
def countDjiFiles (env : ImportEnv) (base : String) (djiFolders : List String)
    (selectedDate : Option String) : Nat :=
  djiFolders.foldl (fun n folder =>
    n + match selectedDate with
        | some d =>
          ((lookupBucket (analyzeAt env (joinPath base folder)).filesByDate d).getD []).length
        | none => (analyzeAt env (joinPath base folder)).totalFiles) 0

/-- Grand-total pre-count of panorama folders matching the filter (main.ts
lines 1574-1583). -/
def countPanoramaFolders (sa : SourceAnalysis) (selectedDate : Option String) : Nat :=
  match selectedDate with
  | some d => (sa.panoramaFolders.filter
      (fun folder => lookupAssoc sa.panoramaFolderDates folder == some d)).length
  | none => sa.panoramaFolders.length

/-- Analysis the standard branch works from: the cached result when it is
fresh, a fresh walk otherwise (main.ts lines 1633-1648). -/
def importMediaAnalysis (env : ImportEnv) (sourcePath : String) : AnalyzeResult :=
  (importMediaCacheLookup env.cache sourcePath env.now (analyzeAt env sourcePath)).1

/-- Result assembly of `fs:importMedia` (main.ts lines 1765-1778):
`total` is `imported + errors.length + skipped.length` by construction. -/
def assembleResult (imported : Nat) (errors skipped : List ImportError)
    (warnings : List String) : ImportOutcome :=
  ImportOutcome.ok
    ⟨imported, imported + errors.length + skipped.length, errors, skipped, warnings⟩

/-- Handler `fs:importMedia` of main.ts (lines 1528-1783). -/
def importMedia (env : ImportEnv) (sourcePath destinationPath : String)
    (selectedDate : Option String) (createDateFolders : Bool) : ImportOutcome :=
  let sourceAnalysis := analyzeSourceForImport env.listDir sourcePath
  if sourceAnalysis.sourceType == SourceType.dji_camera then
    let base := sourceAnalysis.dcimPath.getD sourcePath
    let djiFilesToImport := countDjiFiles env base sourceAnalysis.djiFolders selectedDate
    let panoramaFoldersToImport := countPanoramaFolders sourceAnalysis selectedDate
    let djiAcc :=
      if sourceAnalysis.djiFolders.length > 0 && djiFilesToImport > 0 then
        importDjiFiles env base destinationPath sourceAnalysis.djiFolders selectedDate
          createDateFolders
      else ⟨0, [], env.occupied⟩
    let panoAcc :=
      if sourceAnalysis.panoramaFolders.length > 0 && panoramaFoldersToImport > 0 then
        importPanoramaFolders env (joinPath base "PANORAMA") destinationPath
          sourceAnalysis.panoramaFolders sourceAnalysis.panoramaFolderDates selectedDate
      else ⟨0, [], []⟩
    if sourceAnalysis.djiFolders.length = 0 ∧ sourceAnalysis.panoramaFolders.length = 0 then
      ImportOutcome.err "No DJI folders or panorama folders found to import"
    else
      assembleResult (djiAcc.imported + panoAcc.imported)
        (djiAcc.errors ++ panoAcc.errors) [] []
  else
    let filesToImport := filterBySelectedDate (importMediaAnalysis env sourcePath) selectedDate
    if filesToImport.length = 0 then ImportOutcome.err "No files to import"
    else
      let acc := (groupByDate filesToImport).foldl
        (stdImportGroup env destinationPath createDateFolders) ⟨0, [], [], env.occupied⟩
      assembleResult acc.imported acc.errors [] acc.warnings

theorem assembleResult_ok_eq (imported : Nat) (errors skipped : List ImportError)
    (warnings : List String) (r : DetailedImportResult)
    (h : assembleResult imported errors skipped warnings = ImportOutcome.ok r) :
    r = ⟨imported, imported + errors.length + skipped.length, errors, skipped, warnings⟩ := by
  unfold assembleResult at h
  rw [ImportOutcome.ok.injEq] at h
  exact h.symm

/-- C6 (amended): for every `DetailedImportResult` a successful
`importMedia` call returns, `imported + errors.length + skipped.length =
total` — the equation holds by construction of the result (and `skipped`
is always empty).  The sum does not, however, account for every file the
orchestrator attempted: a file that fails non-retryably or is dropped by
the duplicate cap appears in none of the three buckets and does not count
toward `total` (see the counterexample). -/
theorem importResult_sum (env : ImportEnv) (sourcePath destinationPath : String)
    (selectedDate : Option String) (createDateFolders : Bool)
    (r : DetailedImportResult)
    (h : importMedia env sourcePath destinationPath selectedDate createDateFolders =
      ImportOutcome.ok r) :
    r.imported + r.errors.length + r.skipped.length = r.total ∧ r.skipped = [] := by
  simp only [importMedia] at h
  split at h
  · split at h
    · exact absurd h (by simp)
    · have he := assembleResult_ok_eq _ _ _ _ _ h
      subst he
      exact ⟨rfl, rfl⟩
  · split at h
    · exact absurd h (by simp)
    · have he := assembleResult_ok_eq _ _ _ _ _ h
      subst he
      exact ⟨rfl, rfl⟩

/-- C6 counterexample environment: a standard source holding exactly one
media file whose copy always throws `ENOSPC` (classified `disk_space`,
non-retryable). -/
def envC6 : ImportEnv :=
  ⟨fun p => if p == "/s" then some [] else none,
   fun p => if p == "/s" then (false, [FsNode.file "a.jpg" 100 0 false none])
     else (false, []),
   fun _ _ _ => some "ENOSPC: no space left on device",
   fun _ => none, fun _ _ => none, [], [], 0⟩

/-- C6 fails as stated: the call succeeds with `imported = 0`,
`errors = []`, `skipped = []` and `total = 0`, although one file was
attempted (the analysis lists exactly one file) — the sum satisfies the
equation but does not account for the non-retryably failing file. -/
theorem importResult_sum_counterexample :
    importMedia envC6 "/s" "/d" none false = ImportOutcome.ok ⟨0, 0, [], [], []⟩ ∧
    (filterBySelectedDate (importMediaAnalysis envC6 "/s") none).length = 1 := by
  decide

/-- Witness environment for C6: the same single-file source with a
succeeding copy. -/
def envC6ok : ImportEnv :=
  ⟨fun p => if p == "/s" then some [] else none,
   fun p => if p == "/s" then (false, [FsNode.file "a.jpg" 100 0 false none])
     else (false, []),
   fun _ _ _ => none, fun _ => none, fun _ _ => none, [], [], 0⟩

/-- Witness for C6 (amended) on a concrete run importing one file. -/
theorem importResult_sum_witness :
    (⟨1, 1, [], [], []⟩ : DetailedImportResult).imported +
      (⟨1, 1, [], [], []⟩ : DetailedImportResult).errors.length +
      (⟨1, 1, [], [], []⟩ : DetailedImportResult).skipped.length =
      (⟨1, 1, [], [], []⟩ : DetailedImportResult).total :=
  (importResult_sum envC6ok "/s" "/d" none false ⟨1, 1, [], [], []⟩ (by decide)).1

/-- C1 (amended): a standard-branch call whose filtered file list is empty
returns the definite failure `No files to import`; but a vendor-specific
(`dji_camera`) call in which the date filter leaves zero DJI files and
zero matching panorama folders falls through both phases and returns the
vacuous success `ok {imported := 0, total := 0, …}` — not the failure the
claim requires for that branch. -/
theorem importMedia_no_files (env : ImportEnv) (sourcePath destinationPath : String)
    (selectedDate : Option String) (createDateFolders : Bool) :
    ((analyzeSourceForImport env.listDir sourcePath).sourceType ≠ SourceType.dji_camera →
      filterBySelectedDate (importMediaAnalysis env sourcePath) selectedDate = [] →
      importMedia env sourcePath destinationPath selectedDate createDateFolders =
        ImportOutcome.err "No files to import") ∧
    ((analyzeSourceForImport env.listDir sourcePath).sourceType = SourceType.dji_camera →
      countDjiFiles env
        ((analyzeSourceForImport env.listDir sourcePath).dcimPath.getD sourcePath)
        (analyzeSourceForImport env.listDir sourcePath).djiFolders selectedDate = 0 →
      countPanoramaFolders (analyzeSourceForImport env.listDir sourcePath) selectedDate = 0 →
      importMedia env sourcePath destinationPath selectedDate createDateFolders =
        ImportOutcome.ok ⟨0, 0, [], [], []⟩) := by
  constructor
  · intro h1 h2
    simp only [importMedia]
    rw [if_neg (by simp [h1])]
    rw [h2]
    simp
  · intro h1 h2 h3
    have hm := (analyzeSourceForImport_classified env.listDir sourcePath).2.mp h1
    simp only [importMedia]
    rw [if_pos (by simp [h1])]
    rw [h2, h3]
    rw [if_neg (by
      rintro ⟨ha, hb⟩
      rcases hm with hm | hm
      · exact hm (List.length_eq_zero.mp ha)
      · exact hm (List.length_eq_zero.mp hb))]
    simp [assembleResult]

/-- C1 counterexample environment: a vendor-layout source with one `DJI_001`
folder that contains no media files at all. -/
def envC1 : ImportEnv :=
  ⟨fun p => if p == "/s" then some [⟨"DJI_001", true, none⟩]
     else if p == "/s/DJI_001" then some [] else none,
   fun _ => (false, []),
   fun _ _ _ => none, fun _ => none, fun _ _ => none, [], [], 0⟩

/-- C1 fails as stated: with the vendor-specific branch selected and zero
files matching after filtering, `importMedia` returns `ok` with
`imported = 0` and `total = 0` instead of `{ok: false, error: "No files
to import"}`. -/
theorem importMedia_no_files_counterexample :
    importMedia envC1 "/s" "/d" none false = ImportOutcome.ok ⟨0, 0, [], [], []⟩ ∧
    (analyzeSourceForImport envC1.listDir "/s").sourceType = SourceType.dji_camera ∧
    countDjiFiles envC1 "/s" (analyzeSourceForImport envC1.listDir "/s").djiFolders none = 0 ∧
    importMedia envC1 "/s" "/d" none false ≠ ImportOutcome.err "No files to import" := by
  decide

/-- Witness for C1 (amended): the vendor-branch conjunct applied to the
concrete empty-`DJI_001` environment. -/
theorem importMedia_no_files_witness :
    importMedia envC1 "/s" "/d" none false = ImportOutcome.ok ⟨0, 0, [], [], []⟩ :=
  (importMedia_no_files envC1 "/s" "/d" none false).2 (by decide) (by decide) (by decide)

/-! ### Duplicate-name resolution lemmas (claim C5) -/

theorem resolveLoop_free (occupied : List String) (dir name : String)
    (fuel counter : Nat) (targetPath : String) (hmem : targetPath ∉ occupied) :
    resolveLoop occupied dir name (fuel + 1) counter targetPath = some targetPath := by
  simp only [resolveLoop]
  rw [if_neg hmem]

theorem resolveLoop_stop (occupied : List String) (dir name : String)
    (fuel counter : Nat) (targetPath : String) (hmem : targetPath ∈ occupied)
    (hc : counter + 1 > 100) :
    resolveLoop occupied dir name (fuel + 1) counter targetPath = none := by
  simp only [resolveLoop]
  rw [if_pos hmem, if_pos hc]

theorem resolveLoop_step (occupied : List String) (dir name : String)
    (fuel counter : Nat) (targetPath : String) (hmem : targetPath ∈ occupied)
    (hc : ¬counter + 1 > 100) :
    resolveLoop occupied dir name (fuel + 1) counter targetPath =
      resolveLoop occupied dir name fuel (counter + 1)
        (joinPath dir (suffixedName name counter)) := by
  simp only [resolveLoop]
  rw [if_pos hmem, if_neg hc]

theorem candidatePath_pos (dir name : String) (c : Nat) (h : 1 ≤ c) :
    candidatePath dir name c = joinPath dir (suffixedName name c) := by
  obtain ⟨k, rfl⟩ : ∃ k, c = k + 1 := ⟨c - 1, by omega⟩
  rfl

theorem resolveLoop_none_iff_aux (occupied : List String) (dir name : String) :
    ∀ n c, c + n = 100 → 1 ≤ c →
    (resolveLoop occupied dir name (n + 1) c (candidatePath dir name (c - 1)) = none ↔
      ∀ k, c - 1 ≤ k → k ≤ 99 → candidatePath dir name k ∈ occupied) := by
  intro n
  induction n with
  | zero =>
    intro c hc h1
    have hc100 : c = 100 := by omega
    subst hc100
    simp only [show (100 : Nat) - 1 = 99 from rfl]
    by_cases hmem : candidatePath dir name 99 ∈ occupied
    · rw [resolveLoop_stop _ _ _ _ _ _ hmem (by omega)]
      constructor
      · intro _ k hk1 hk2
        have hk : k = 99 := by omega
        subst hk
        exact hmem
      · intro _
        rfl
    · rw [resolveLoop_free _ _ _ _ _ _ hmem]
      constructor
      · intro h
        exact absurd h (by simp)
      · intro hall
        exact absurd (hall 99 (by omega) (by omega)) hmem
  | succ n ih =>
    intro c hc h1
    by_cases hmem : candidatePath dir name (c - 1) ∈ occupied
    · rw [resolveLoop_step _ _ _ _ _ _ hmem (by omega)]
      rw [← candidatePath_pos dir name c (by omega)]
      have ihc := ih (c + 1) (by omega) (by omega)
      simp only [Nat.add_sub_cancel] at ihc
      rw [ihc]
      constructor
      · intro hall k hk1 hk2
        by_cases hkc : k = c - 1
        · subst hkc
          exact hmem
        · exact hall k (by omega) hk2
      · intro hall k hk1 hk2
        exact hall k (by omega) hk2
    · rw [resolveLoop_free _ _ _ _ _ _ hmem]
      constructor
      · intro h
        exact absurd h (by simp)
      · intro hall
        exact absurd (hall (c - 1) (by omega) (by omega)) hmem

/-- Characterization of the give-up case: the loop returns `none` (and the
file is skipped) precisely when the original name and the suffixed names
`_1` … `_99` are all taken — the candidate with suffix `_100` is generated
as the counter trips the cap but never probed. -/
theorem resolveTarget_none_iff (occupied : List String) (dir name : String) :
    resolveTarget occupied dir name = none ↔
      ∀ k, k ≤ 99 → candidatePath dir name k ∈ occupied := by
  have h := resolveLoop_none_iff_aux occupied dir name 99 1 (by omega) (by omega)
  constructor
  · intro hh k hk
    exact (h.mp hh) k (by omega) hk
  · intro hall
    exact h.mpr fun k _ hk => hall k hk

theorem resolveLoop_first_free_aux (occupied : List String) (dir name : String) :
    ∀ n c, c + n = 100 → 1 ≤ c → ∀ k, c - 1 ≤ k → k ≤ 99 →
    candidatePath dir name k ∉ occupied →
    (∀ j, c - 1 ≤ j → j < k → candidatePath dir name j ∈ occupied) →
    resolveLoop occupied dir name (n + 1) c (candidatePath dir name (c - 1)) =
      some (candidatePath dir name k) := by
  intro n
  induction n with
  | zero =>
    intro c hc h1 k hk1 hk2 hfree _
    have hc100 : c = 100 := by omega
    subst hc100
    have hk : k = 99 := by omega
    subst hk
    simp only [show (100 : Nat) - 1 = 99 from rfl]
    exact resolveLoop_free _ _ _ _ _ _ hfree
  | succ n ih =>
    intro c hc h1 k hk1 hk2 hfree hprev
    by_cases hkc : k = c - 1
    · subst hkc
      exact resolveLoop_free _ _ _ _ _ _ hfree
    · have hmem : candidatePath dir name (c - 1) ∈ occupied :=
        hprev (c - 1) (by omega) (by omega)
      rw [resolveLoop_step _ _ _ _ _ _ hmem (by omega)]
      rw [← candidatePath_pos dir name c (by omega)]
      have ihc := ih (c + 1) (by omega) (by omega) k (by omega) hk2 hfree
        (fun j hj1 hj2 => hprev j (by omega) hj2)
      simpa using ihc

/-- Resolution of the first free candidate: when candidate `k < 100` is
free and all earlier candidates are taken, the loop lands on candidate
`k`. -/
theorem resolveTarget_first_free (occupied : List String) (dir name : String)
    (k : Nat) (hk : k ≤ 99) (hfree : candidatePath dir name k ∉ occupied)
    (hprev : ∀ j, j < k → candidatePath dir name j ∈ occupied) :
    resolveTarget occupied dir name = some (candidatePath dir name k) :=
  resolveLoop_first_free_aux occupied dir name 99 1 (by omega) (by omega) k (by omega)
    hk hfree (fun j _ hj => hprev j hj)

theorem candidatePath_zero_ne_one (dir name : String) :
    candidatePath dir name 0 ≠ candidatePath dir name 1 := by
  intro h
  have hl := congrArg String.length h
  simp only [candidatePath, joinPath] at hl
  rw [String.length_append, String.length_append, String.length_append,
    String.length_append] at hl
  rw [length_suffixedName] at hl
  have h1 : (Nat.repr 1).length = 1 := rfl
  omega

theorem stdProcessFile_skip (copyAttempt : String → String → Nat → Option String)
    (imagesDir videosDir : String) (acc : StdAcc) (file : MediaFileInfo)
    (h : resolveTarget acc.occupied
      (if file.type == MediaType.image then imagesDir else videosDir) file.name = none) :
    stdProcessFile copyAttempt imagesDir videosDir acc file = acc := by
  simp only [stdProcessFile]
  rw [h]

theorem stdProcessFile_warnings (copyAttempt : String → String → Nat → Option String)
    (imagesDir videosDir : String) (acc : StdAcc) (file : MediaFileInfo) (p : String)
    (h : resolveTarget acc.occupied
      (if file.type == MediaType.image then imagesDir else videosDir) file.name = some p) :
    (stdProcessFile copyAttempt imagesDir videosDir acc file).warnings =
      (if p ≠ joinPath (if file.type == MediaType.image then imagesDir else videosDir)
          file.name
       then acc.warnings ++ [dupWarning file.name p] else acc.warnings) := by
  simp only [stdProcessFile]
  rw [h]
  repeat' split
  all_goals try rfl
  all_goals simp_all

theorem stdProcessFile_success_fields (copyAttempt : String → String → Nat → Option String)
    (imagesDir videosDir : String) (acc : StdAcc) (file : MediaFileInfo) (p : String)
    (htype : (file.type == MediaType.image) = true)
    (h : resolveTarget acc.occupied imagesDir file.name = some p)
    (hcopy : copyAttempt file.path p 0 = none) :
    stdProcessFile copyAttempt imagesDir videosDir acc file =
      { imported := acc.imported + 1,
        errors := acc.errors,
        warnings := if p ≠ joinPath imagesDir file.name
          then acc.warnings ++ [dupWarning file.name p] else acc.warnings,
        occupied := acc.occupied ++ [p] } := by
  have hrun : copyFileWithRetry (copyAttempt file.path p) file.path 3 = ⟨true, none, 1, []⟩ := by
    show copyAttemptLoop (copyAttempt file.path p) (basenameStr file.path) 3 (3 + 1) 0 = _
    exact copyAttemptLoop_succ_ok _ _ _ _ _ hcopy
  simp only [stdProcessFile, htype, if_true]
  rw [h]
  split
  · next heq => simp at heq
  · next tp heq =>
    rw [Option.some.injEq] at heq
    subst heq
    rw [hrun]
    by_cases hne : p ≠ joinPath imagesDir file.name
    · simp [hne]
    · simp [hne]

/-! ### Interleaved execution of the copy fan-out (claim C5)

The per-file bodies of `mapLimit(files, 8, …)` (main.ts lines 1701-1761)
run concurrently on the event loop: each `await` — every `fsp.access`
probe of the duplicate loop and the `copyFileWithRetry` call — is a
suspension point, and the synchronous code between two suspension points
of one task runs atomically.  The model below splits each task at exactly
those points and executes the group under an explicit schedule listing
which task's pending operation resolves next.  One task's tail
(`copyFile`, `stat`, `utimes`, the success bookkeeping) is folded into a
single step; folding consecutive suspension points of the same task only
restricts the schedules, so every behaviour of this model is a behaviour
the real event loop can produce.  With at most 8 files in a group every
task has issued its first probe before any resolution arrives. -/

/-- State of one in-flight per-file task between its suspension points:
`probing counter targetPath` is a pending `fsp.access(targetPath)` with
the loop counter of main.ts line 1707, `copying targetPath` is a pending
`copyFileWithRetry(file.path, targetPath)`, and `finished` is a task whose
body returned. -/
inductive CopyTask where
  | probing (counter : Nat) (targetPath : String) (file : MediaFileInfo)
  | copying (targetPath : String) (file : MediaFileInfo)
  | finished
deriving DecidableEq, Repr

/-- Shared state of one date group's concurrent copy fan-out: the task
array, the accumulators of main.ts (`totalImported`, `totalErrors`,
`totalWarnings`), the set of destination paths that exist, and the log of
`copyFile` destination writes in completion order (a repeated entry is an
overwrite of an existing file — `fsp.copyFile` replaces the destination by
default). -/
structure GroupRunState where
  tasks : List CopyTask
  imported : Nat
  errors : List ImportError
  warnings : List String
  fs : List String
  writes : List String
deriving DecidableEq, Repr

/-- Target directory of one file (main.ts line 1703). -/
def targetDirOf (imagesDir videosDir : String) (file : MediaFileInfo) : String :=
  if file.type == MediaType.image then imagesDir else videosDir

/-- Resolution of the pending operation of task `i` — one atomic segment
of the body of main.ts lines 1701-1761.  A resolving `access` probe reads
the filesystem as it is *now*: if the candidate exists the next candidate
is built and the counter stepped (skip past 100, lines 1715-1724); if it
is free the duplicate warning is recorded when the name changed (lines
1727-1732) and the copy is issued.  A resolving copy writes its
destination (creating it or overwriting an existing file), counts a
successful import, and sorts a failure like the sequential model does
(lines 1743-1752). -/
def stepTask (copyAttempt : String → String → Nat → Option String)
    (imagesDir videosDir : String) (st : GroupRunState) (i : Nat) : GroupRunState :=
  match st.tasks.get? i with
  | none => st
  | some CopyTask.finished => st
  | some (CopyTask.probing counter targetPath file) =>
    let targetDir := targetDirOf imagesDir videosDir file
    if targetPath ∈ st.fs then
      let tp := joinPath targetDir (suffixedName file.name counter)
      if counter + 1 > 100 then { st with tasks := st.tasks.set i CopyTask.finished }
      else { st with tasks := st.tasks.set i (CopyTask.probing (counter + 1) tp file) }
    else
      let st1 := if targetPath ≠ joinPath targetDir file.name then
          { st with warnings := st.warnings ++ [dupWarning file.name targetPath] }
        else st
      { st1 with tasks := st1.tasks.set i (CopyTask.copying targetPath file) }
  | some (CopyTask.copying targetPath file) =>
    let r := copyFileWithRetry (copyAttempt file.path targetPath) file.path 3
    if r.success then
      { st with
        tasks := st.tasks.set i CopyTask.finished
        imported := st.imported + 1
        fs := if targetPath ∈ st.fs then st.fs else st.fs ++ [targetPath]
        writes := st.writes ++ [targetPath] }
    else
      match r.error with
      | some e =>
        if e.canRetry then
          { st with
            tasks := st.tasks.set i CopyTask.finished
            errors := st.errors ++ [e] }
        else { st with tasks := st.tasks.set i CopyTask.finished }
      | none => { st with tasks := st.tasks.set i CopyTask.finished }

/-- Execution of one date group's fan-out under an explicit event-loop
schedule.  Every task starts with its `access` probe of the unsuffixed
name pending (counter 1, main.ts lines 1704-1708). -/
def runGroupSchedule (copyAttempt : String → String → Nat → Option String)
    (imagesDir videosDir : String) (files : List MediaFileInfo)
    (fs0 : List String) (schedule : List Nat) : GroupRunState :=
  schedule.foldl (stepTask copyAttempt imagesDir videosDir)
    { tasks := files.map (fun f =>
        CopyTask.probing 1 (joinPath (targetDirOf imagesDir videosDir f) f.name) f),
      imported := 0, errors := [], warnings := [], fs := fs0, writes := [] }

/-- First of the two colliding source files. -/
def raceF1 : MediaFileInfo :=
  ⟨"/s/a/x.jpg", "x.jpg", MediaType.image, 5, "1970-01-01", none, 0⟩

/-- Second colliding source file: a distinct file with the same name. -/
def raceF2 : MediaFileInfo :=
  ⟨"/s/b/x.jpg", "x.jpg", MediaType.image, 7, "1970-01-01", none, 0⟩

/-- Run of the two colliding files under the schedule where both `access`
probes resolve before either copy begins — the ordinary outcome when two
workers of `mapLimit(files, 8, …)` start the batch together. -/
def raceRun : GroupRunState :=
  runGroupSchedule (fun _ _ _ => none) "/d/IMAGES" "/d/VIDEOS"
    [raceF1, raceF2] [] [0, 1, 0, 1]

/-- Run of the same two files under the schedule where the first file's
probe and copy both complete before the second file starts probing. -/
def seqRun : GroupRunState :=
  runGroupSchedule (fun _ _ _ => none) "/d/IMAGES" "/d/VIDEOS"
    [raceF1, raceF2] [] [0, 0, 1, 1, 1]

/-- C5 is the intended behaviour but the code does not guarantee it: under
the interleaved schedule both colliding files pass the `access` probe
before either `copyFile` runs, both resolve to the unsuffixed target, and
the second copy overwrites the first — one destination file, no `_1`
suffix, no duplicate warning, while `imported` still counts 2.  The
non-atomic check-then-copy of the duplicate loop (main.ts lines 1706-1743,
whose own comments state the intent of suffixing colliders) is defeated by
the concurrent fan-out; only when the colliders' probe-copy windows do not
overlap (last two conjuncts) does the code produce the claimed `x.jpg`
plus `x_1.jpg` with the warning. -/
theorem stdDuplicate_race_overwrites :
    raceRun.imported = 2 ∧
    raceRun.warnings = [] ∧
    raceRun.fs = [joinPath "/d/IMAGES" "x.jpg"] ∧
    raceRun.writes = [joinPath "/d/IMAGES" "x.jpg", joinPath "/d/IMAGES" "x.jpg"] ∧
    joinPath "/d/IMAGES" (suffixedName "x.jpg" 1) ∉ raceRun.fs ∧
    seqRun.fs = [joinPath "/d/IMAGES" "x.jpg",
      joinPath "/d/IMAGES" (suffixedName "x.jpg" 1)] ∧
    seqRun.warnings = [dupWarning "x.jpg" (joinPath "/d/IMAGES" (suffixedName "x.jpg" 1))] := by
  decide

end MediaWrangler
